import Mathlib

/-!
Focalboard metrics service (`server/services/metrics/metrics.go`).

A shallow embedding of the metrics shim and the properties of its update
operations.

* Go pointers are addresses into an explicit `World` (registries, counter cells,
  gauge cells, gauge-vector cells); `*Metrics` being nil is `Option Metrics`.
* A Go panic is `Except.error`.
* The wall clock and the process environment are inputs (`now`, `Host.getenv`).
* `float64(n)` of a Go integer is modelled exactly: every float64 of magnitude
  at least 2^53 is an integer, so the conversion is round-to-nearest-even on
  integers.
* A counter keeps its whole-number increments in an unsigned 64-bit accumulator
  and exposes the float64 of the accumulator.
-/

namespace FocalboardMetrics

/-! ## float64 arithmetic on integer values -/

/-- Halve `a` until it fits in 53 bits; the result is the power of two that was divided out.
`fuel` bounds the number of halvings. -/
def f64UlpAux : Nat → Nat → Nat
  | 0, _ => 1
  | fuel + 1, a => if a < 2 ^ 53 then 1 else 2 * f64UlpAux fuel (a / 2)

/-- Spacing of the float64 values around the natural number `a`: 1 below 2^53,
2 from 2^53 to 2^54, and so on (`a` halvings always suffice). -/
def f64Ulp (a : Nat) : Nat := f64UlpAux a a

/-- Round a natural number to the nearest float64, ties to the even significand. -/
def f64RoundNat (a : Nat) : Nat :=
  let u := f64Ulp a
  let q := a / u
  let r := a % u
  if 2 * r < u then q * u
  else if u < 2 * r then (q + 1) * u
  else if q % 2 = 0 then q * u else (q + 1) * u

/-- Go conversion `float64(n)` of an integer `n` (`int` or `int64`): the nearest float64,
which is again an integer. -/
def float64 (n : Int) : Int :=
  if 0 ≤ n then (f64RoundNat n.toNat : Int) else -(f64RoundNat n.natAbs : Int)

/-! ## Constants and data model -/

def MetricsNamespace : String := "focalboard"
def MetricsSubsystemBlocks : String := "blocks"
def MetricsSubsystemWorkspaces : String := "workspaces"
def MetricsSubsystemSystem : String := "system"

def MetricsCloudInstallationLabel : String := "installationId"

structure InstanceInfo where
  Version : String
  BuildNum : String
  Edition : String
  InstallationID : String
deriving DecidableEq, Repr

/-- A Go `map[string]string` as an association list. -/
abbrev Labels := List (String × String)

/-- The fields of `prometheus.CounterOpts` / `prometheus.GaugeOpts` that the source sets. -/
structure Opts where
  Namespace : String
  Subsystem : String
  Name : String
  Help : String
  ConstLabels : Labels
deriving DecidableEq, Repr

/-- The identifier of an instrument: (namespace, subsystem, name). -/
structure FQName where
  Namespace : String
  Subsystem : String
  Name : String
deriving DecidableEq, Repr

def Opts.fqName (o : Opts) : FQName := ⟨o.Namespace, o.Subsystem, o.Name⟩

/-- What can be handed to `Registry.MustRegister`. Instruments carry the address of
their value cell in the `World`. -/
inductive Collector where
  /-- `prometheus.NewProcessCollector(ProcessCollectorOpts{Namespace: ns})` -/
  | processCollector (ns : String)
  /-- `prometheus.NewGoCollector()` -/
  | goCollector
  /-- `prometheus.NewCounter(opts)` -/
  | counter (opts : Opts) (cell : Nat)
  /-- `prometheus.NewGauge(opts)` -/
  | gauge (opts : Opts) (cell : Nat)
  /-- `prometheus.NewGaugeVec(opts, labelNames)` -/
  | gaugeVec (opts : Opts) (labelNames : List String) (cell : Nat)
deriving DecidableEq, Repr

/-- The constant labels the source gives a collector. The process collector and the Go
collector are built without any label set (`ProcessCollectorOpts` only gets `Namespace`,
`NewGoCollector` takes no argument). -/
def Collector.constLabels : Collector → Labels
  | .processCollector _ => []
  | .goCollector => []
  | .counter o _ => o.ConstLabels
  | .gauge o _ => o.ConstLabels
  | .gaugeVec o _ _ => o.ConstLabels

/-- A collector carries the constant label named `name`. -/
def Collector.hasConstLabel (c : Collector) (name : String) : Prop :=
  name ∈ c.constLabels.map Prod.fst

instance (c : Collector) (name : String) : Decidable (c.hasConstLabel name) := by
  unfold Collector.hasConstLabel; infer_instance

/-- The heap: registries and instrument value cells, each kind with its allocation counter. -/
structure World where
  registries : Nat → List Collector
  nextRegistry : Nat
  /-- the unsigned 64-bit accumulator of each counter -/
  counters : Nat → Nat
  nextCounter : Nat
  gauges : Nat → ℚ
  nextGauge : Nat
  gaugeVecs : Nat → List String → Option ℚ
  nextGaugeVec : Nat

/-- The value a counter exposes: the float64 of its accumulator. -/
def World.counterValue (w : World) (cell : Nat) : Int := float64 (w.counters cell)

/-- A world in which nothing has been allocated. -/
def World.empty : World :=
  { registries := fun _ => [], nextRegistry := 0
    counters := fun _ => 0, nextCounter := 0
    gauges := fun _ => 0, nextGauge := 0
    gaugeVecs := fun _ _ => none, nextGaugeVec := 0 }

/-- What the process and the linked library supply: the environment variables and the
identifiers described by the two library collectors. -/
structure Host where
  /-- `os.Getenv` -/
  getenv : String → String
  /-- Identifiers described by the process collector built for a namespace. -/
  processDescs : String → List FQName
  /-- Identifiers described by the Go runtime collector. -/
  goDescs : List FQName

inductive Panic where
  /-- `MustRegister` on an identifier that the registry already holds. -/
  | duplicateRegistration
  /-- `Counter.Add` with a negative value. -/
  | counterDecrease
deriving DecidableEq, Repr

/-- The Go struct `Metrics`: pointers to the registry and to the instruments.
(`instanceGauge` is the field `instance`.) -/
structure Metrics where
  registry : Nat
  instanceGauge : Nat
  startTime : Nat
  loginCount : Nat
  loginFailCount : Nat
  blocksInsertedCount : Nat
  blocksDeletedCount : Nat
  blockCount : Nat
  workspaceCount : Nat
  blockLastActivity : Nat
deriving DecidableEq, Repr

/-! ## The instrumentation library -/

/-- Modelled from the spec: `prometheus.NewRegistry` (library code, not in the source tree);
"an explicitly constructed ... registry object with no implicit global singleton": a fresh,
empty registry. -/
def NewRegistry (w : World) : Nat × World :=
  (w.nextRegistry,
    { w with registries := Function.update w.registries w.nextRegistry [],
             nextRegistry := w.nextRegistry + 1 })

/-- The identifiers a collector describes. -/
def Collector.descs (h : Host) : Collector → List FQName
  | .processCollector ns => h.processDescs ns
  | .goCollector => h.goDescs
  | .counter o _ => [o.fqName]
  | .gauge o _ => [o.fqName]
  | .gaugeVec o _ _ => [o.fqName]

/-- All identifiers held by a registry. -/
def registeredDescs (h : Host) (cs : List Collector) : List FQName :=
  cs.flatMap (Collector.descs h)

/-- Modelled from the spec: `Registry.MustRegister` (library code, not in the source tree);
"registering an instrument with a name colliding with an already-registered instrument is
fatal". -/
def MustRegister (h : Host) (r : Nat) (c : Collector) (w : World) : Except Panic World :=
  if ∃ d ∈ c.descs h, d ∈ registeredDescs h (w.registries r) then
    .error .duplicateRegistration
  else
    .ok { w with registries := Function.update w.registries r (w.registries r ++ [c]) }

/-- Modelled from the spec: `prometheus.NewCounter` (library code, not in the source tree);
a new counter starts at 0. -/
def NewCounter (w : World) : Nat × World :=
  (w.nextCounter,
    { w with counters := Function.update w.counters w.nextCounter 0,
             nextCounter := w.nextCounter + 1 })

/-- Modelled from the spec: `Counter.Add` (library code, not in the source tree);
"add n to ... counter", and the instrument "may itself panic on invalid counter decrements".
A whole-number increment is added exactly to the unsigned 64-bit accumulator of the counter,
which wraps at 2^64. (The source only passes `float64` of a 64-bit integer, a whole number of
at most 2^63.) -/
def CounterAdd (cell : Nat) (v : Int) (w : World) : Except Panic World :=
  if v < 0 then .error .counterDecrease
  else .ok { w with counters :=
    (Function.update w.counters cell ((w.counters cell + v.toNat) % 2 ^ 64)) }

/-- Modelled from the spec: `prometheus.NewGauge` (library code, not in the source tree);
a new gauge starts at 0. -/
def NewGauge (w : World) : Nat × World :=
  (w.nextGauge,
    { w with gauges := Function.update w.gauges w.nextGauge 0,
             nextGauge := w.nextGauge + 1 })

/-- Modelled from the spec: `Gauge.Set` (library code, not in the source tree);
"Gauge: arbitrary up/down numeric value, supports absolute set". -/
def GaugeSet (cell : Nat) (v : ℚ) (w : World) : World :=
  { w with gauges := Function.update w.gauges cell v }

/-- Modelled from the spec: the clock behind `SetToCurrentTime` (library code, not in the
source tree); a timestamp written by a call is "a value ≥ the timestamp observed immediately
before the call": `reading k` is the k-th reading taken from the clock, in seconds, and a
later reading is never smaller. -/
structure Clock where
  reading : Nat → ℚ
  mono : ∀ i j, i ≤ j → reading i ≤ reading j

/-- Modelled from the spec: `Gauge.SetToCurrentTime` (library code, not in the source tree);
"set ... gauge to current time". `now` is the clock reading, in seconds. -/
def GaugeSetToCurrentTime (cell : Nat) (now : ℚ) (w : World) : World :=
  GaugeSet cell now w

/-- Modelled from the spec: `prometheus.NewGaugeVec` (library code, not in the source tree);
"Gauge-vector: a family of gauges distinguished by one or more label values"; a new family
has no member. -/
def NewGaugeVec (w : World) : Nat × World :=
  (w.nextGaugeVec,
    { w with gaugeVecs := Function.update w.gaugeVecs w.nextGaugeVec (fun _ => none),
             nextGaugeVec := w.nextGaugeVec + 1 })

/-- Modelled from the spec: `GaugeVec.WithLabelValues(lvs...).Set(v)` (library code, not in
the source tree); "set ... gauge-vector at label ... to count (absolute, not additive)". -/
def GaugeVecSet (cell : Nat) (lvs : List String) (v : ℚ) (w : World) : World :=
  { w with gaugeVecs :=
      Function.update w.gaugeVecs cell (Function.update (w.gaugeVecs cell) lvs (some v)) }

/-! ## `NewMetrics` -/

/-- The map `additionalLabels` of `NewMetrics`. -/
def additionalLabels (h : Host) (info : InstanceInfo) : Labels :=
  if info.InstallationID ≠ "" then
    [(MetricsCloudInstallationLabel, h.getenv "MM_CLOUD_INSTALLATION_ID")]
  else []

def loginCountOpts (l : Labels) : Opts :=
  { Namespace := MetricsNamespace, Subsystem := MetricsSubsystemSystem,
    Name := "login_total", Help := "Total number of logins.", ConstLabels := l }

def loginFailCountOpts (l : Labels) : Opts :=
  { Namespace := MetricsNamespace, Subsystem := MetricsSubsystemSystem,
    Name := "login_fail_total", Help := "Total number of failed logins.", ConstLabels := l }

def instanceOpts (l : Labels) : Opts :=
  { Namespace := MetricsNamespace, Subsystem := MetricsSubsystemSystem,
    Name := "focalboard_instance_info", Help := "Instance information for Focalboard.",
    ConstLabels := l }

def startTimeOpts (l : Labels) : Opts :=
  { Namespace := MetricsNamespace, Subsystem := MetricsSubsystemSystem,
    Name := "server_start_time", Help := "The time the server started.", ConstLabels := l }

def blocksInsertedCountOpts (l : Labels) : Opts :=
  { Namespace := MetricsNamespace, Subsystem := MetricsSubsystemBlocks,
    Name := "blocks_inserted_total", Help := "Total number of blocks inserted.",
    ConstLabels := l }

def blocksDeletedCountOpts (l : Labels) : Opts :=
  { Namespace := MetricsNamespace, Subsystem := MetricsSubsystemBlocks,
    Name := "blocks_deleted_total", Help := "Total number of blocks deleted.",
    ConstLabels := l }

def blockCountOpts (l : Labels) : Opts :=
  { Namespace := MetricsNamespace, Subsystem := MetricsSubsystemBlocks,
    Name := "blocks_total", Help := "Total number of blocks.", ConstLabels := l }

def workspaceCountOpts (l : Labels) : Opts :=
  { Namespace := MetricsNamespace, Subsystem := MetricsSubsystemWorkspaces,
    Name := "workspaces_total", Help := "Total number of workspaces.", ConstLabels := l }

def blockLastActivityOpts (l : Labels) : Opts :=
  { Namespace := MetricsNamespace, Subsystem := MetricsSubsystemBlocks,
    Name := "blocks_last_activity", Help := "Time of last block insert, update, delete.",
    ConstLabels := l }

/-- `NewMetrics(info)`, statement by statement. `now` is the clock reading taken by
`m.startTime.SetToCurrentTime()`. -/
def NewMetrics (h : Host) (now : ℚ) (info : InstanceInfo) (w0 : World) :
    Except Panic (Metrics × World) := do
  let (registry, w) := NewRegistry w0
  let w ← MustRegister h registry (.processCollector MetricsNamespace) w
  let w ← MustRegister h registry .goCollector w
  let labels := additionalLabels h info
  let (loginCount, w) := NewCounter w
  let w ← MustRegister h registry (.counter (loginCountOpts labels) loginCount) w
  let (loginFailCount, w) := NewCounter w
  let w ← MustRegister h registry (.counter (loginFailCountOpts labels) loginFailCount) w
  let (inst, w) := NewGaugeVec w
  let w ← MustRegister h registry
    (.gaugeVec (instanceOpts labels) ["Version", "BuildNum", "Edition"] inst) w
  let w := GaugeVecSet inst [info.Version, info.BuildNum, info.Edition] 1 w
  let (startTime, w) := NewGauge w
  let w := GaugeSetToCurrentTime startTime now w
  let w ← MustRegister h registry (.gauge (startTimeOpts labels) startTime) w
  let (blocksInsertedCount, w) := NewCounter w
  let w ← MustRegister h registry
    (.counter (blocksInsertedCountOpts labels) blocksInsertedCount) w
  let (blocksDeletedCount, w) := NewCounter w
  let w ← MustRegister h registry
    (.counter (blocksDeletedCountOpts labels) blocksDeletedCount) w
  let (blockCount, w) := NewGaugeVec w
  let w ← MustRegister h registry (.gaugeVec (blockCountOpts labels) ["BlockType"] blockCount) w
  let (workspaceCount, w) := NewGauge w
  let w ← MustRegister h registry (.gauge (workspaceCountOpts labels) workspaceCount) w
  let (blockLastActivity, w) := NewGauge w
  let w ← MustRegister h registry (.gauge (blockLastActivityOpts labels) blockLastActivity) w
  pure ({ registry := registry, instanceGauge := inst, startTime := startTime,
          loginCount := loginCount, loginFailCount := loginFailCount,
          blocksInsertedCount := blocksInsertedCount,
          blocksDeletedCount := blocksDeletedCount, blockCount := blockCount,
          workspaceCount := workspaceCount, blockLastActivity := blockLastActivity }, w)

/-! ## Update operations -/

def IncrementLoginCount (m : Option Metrics) (num : Int) (w : World) : Except Panic World :=
  match m with
  | none => .ok w
  | some m => CounterAdd m.loginCount (float64 num) w

def IncrementLoginFailCount (m : Option Metrics) (num : Int) (w : World) :
    Except Panic World :=
  match m with
  | none => .ok w
  | some m => CounterAdd m.loginFailCount (float64 num) w

def IncrementBlocksInserted (m : Option Metrics) (now : ℚ) (num : Int) (w : World) :
    Except Panic World :=
  match m with
  | none => .ok w
  | some m => do
    let w ← CounterAdd m.blocksInsertedCount (float64 num) w
    pure (GaugeSetToCurrentTime m.blockLastActivity now w)

def IncrementBlocksDeleted (m : Option Metrics) (now : ℚ) (num : Int) (w : World) :
    Except Panic World :=
  match m with
  | none => .ok w
  | some m => do
    let w ← CounterAdd m.blocksDeletedCount (float64 num) w
    pure (GaugeSetToCurrentTime m.blockLastActivity now w)

def ObserveBlockCount (m : Option Metrics) (blockType : String) (count : Int) (w : World) :
    Except Panic World :=
  match m with
  | none => .ok w
  | some m => .ok (GaugeVecSet m.blockCount [blockType] (float64 count) w)

def ObserveWorkspaceCount (m : Option Metrics) (count : Int) (w : World) :
    Except Panic World :=
  match m with
  | none => .ok w
  | some m => .ok (GaugeSet m.workspaceCount (float64 count) w)

/-- One call of an update operation, with its arguments. -/
inductive Call where
  | incrementLoginCount (num : Int)
  | incrementLoginFailCount (num : Int)
  | incrementBlocksInserted (num : Int)
  | incrementBlocksDeleted (num : Int)
  | observeBlockCount (blockType : String) (count : Int)
  | observeWorkspaceCount (count : Int)
deriving DecidableEq, Repr

/-- Perform a call on the registry `m` (possibly nil); `now` is the clock reading available
to the call. -/
def Call.run (m : Option Metrics) (now : ℚ) : Call → World → Except Panic World
  | .incrementLoginCount num => IncrementLoginCount m num
  | .incrementLoginFailCount num => IncrementLoginFailCount m num
  | .incrementBlocksInserted num => IncrementBlocksInserted m now num
  | .incrementBlocksDeleted num => IncrementBlocksDeleted m now num
  | .observeBlockCount blockType count => ObserveBlockCount m blockType count
  | .observeWorkspaceCount count => ObserveWorkspaceCount m count

/-- The worlds reached after each call of a sequence of timed calls. A panic ends the
process, so the sequence of worlds stops there. -/
def trace (m : Option Metrics) : List (ℚ × Call) → World → List World
  | [], _ => []
  | (now, c) :: rest, w =>
    match c.run m now w with
    | .ok w1 => w1 :: trace m rest w1
    | .error _ => []

/-- Call `f n_1`, ..., `f n_k` in order, stopping at a panic. -/
def runAll (f : Int → World → Except Panic World) : List Int → World → Except Panic World
  | [], w => .ok w
  | n :: ns, w =>
    match f n w with
    | .ok w1 => runAll f ns w1
    | .error e => .error e

/-- The instrument values of a registry, as exposed. -/
structure Snapshot where
  loginCount : Int
  loginFailCount : Int
  blocksInsertedCount : Int
  blocksDeletedCount : Int
  /-- by the label values Version, BuildNum, Edition -/
  instanceGauge : String → String → String → Option ℚ
  startTime : ℚ
  /-- by the label value BlockType -/
  blockCount : String → Option ℚ
  workspaceCount : ℚ
  blockLastActivity : ℚ

/-- Read every instrument of `m`. -/
def observe (m : Metrics) (w : World) : Snapshot :=
  { loginCount := w.counterValue m.loginCount
    loginFailCount := w.counterValue m.loginFailCount
    blocksInsertedCount := w.counterValue m.blocksInsertedCount
    blocksDeletedCount := w.counterValue m.blocksDeletedCount
    instanceGauge := fun v b e => w.gaugeVecs m.instanceGauge [v, b, e]
    startTime := w.gauges m.startTime
    blockCount := fun t => w.gaugeVecs m.blockCount [t]
    workspaceCount := w.gauges m.workspaceCount
    blockLastActivity := w.gauges m.blockLastActivity }

/-! ## Invariants of constructed registries -/

/-- The instruments of one registry are different objects. -/
def Metrics.Distinct (m : Metrics) : Prop :=
  [m.loginCount, m.loginFailCount, m.blocksInsertedCount, m.blocksDeletedCount].Nodup ∧
  [m.startTime, m.workspaceCount, m.blockLastActivity].Nodup ∧
  m.instanceGauge ≠ m.blockCount

instance (m : Metrics) : Decidable m.Distinct := by unfold Metrics.Distinct; infer_instance

/-- Every pointer of `m` points at something allocated in `w`. -/
def Metrics.AllocatedIn (m : Metrics) (w : World) : Prop :=
  m.registry < w.nextRegistry ∧
  (∀ a ∈ [m.loginCount, m.loginFailCount, m.blocksInsertedCount, m.blocksDeletedCount],
    a < w.nextCounter) ∧
  (∀ a ∈ [m.startTime, m.workspaceCount, m.blockLastActivity], a < w.nextGauge) ∧
  (∀ a ∈ [m.instanceGauge, m.blockCount], a < w.nextGaugeVec)

instance (m : Metrics) (w : World) : Decidable (m.AllocatedIn w) := by
  unfold Metrics.AllocatedIn; infer_instance

/-- Every counter accumulator is an unsigned 64-bit number. -/
def World.WF (w : World) : Prop := ∀ a, w.counters a < 2 ^ 64

/-- The state of a registry that `NewMetrics` returned, at any later time: its instruments
are distinct allocated objects and counter accumulators are 64-bit numbers. `NewMetrics`
establishes it (`NewMetrics_constructed`) and every update call keeps it
(`Call.run_constructed`). -/
def Constructed (m : Metrics) (w : World) : Prop :=
  m.Distinct ∧ m.AllocatedIn w ∧ w.WF

/-- The nine instruments of `NewMetrics` in registration order, as registered. -/
def instruments (l : Labels) (m : Metrics) : List Collector :=
  [ .counter (loginCountOpts l) m.loginCount,
    .counter (loginFailCountOpts l) m.loginFailCount,
    .gaugeVec (instanceOpts l) ["Version", "BuildNum", "Edition"] m.instanceGauge,
    .gauge (startTimeOpts l) m.startTime,
    .counter (blocksInsertedCountOpts l) m.blocksInsertedCount,
    .counter (blocksDeletedCountOpts l) m.blocksDeletedCount,
    .gaugeVec (blockCountOpts l) ["BlockType"] m.blockCount,
    .gauge (workspaceCountOpts l) m.workspaceCount,
    .gauge (blockLastActivityOpts l) m.blockLastActivity ]

/-- The identifiers of the nine instruments. -/
def instrumentNames : List FQName :=
  [ ⟨"focalboard", "system", "login_total"⟩,
    ⟨"focalboard", "system", "login_fail_total"⟩,
    ⟨"focalboard", "system", "focalboard_instance_info"⟩,
    ⟨"focalboard", "system", "server_start_time"⟩,
    ⟨"focalboard", "blocks", "blocks_inserted_total"⟩,
    ⟨"focalboard", "blocks", "blocks_deleted_total"⟩,
    ⟨"focalboard", "blocks", "blocks_total"⟩,
    ⟨"focalboard", "workspaces", "workspaces_total"⟩,
    ⟨"focalboard", "blocks", "blocks_last_activity"⟩ ]

/-- The library collectors do not collide: no identifier of the Go collector is one of the
process collector, and neither describes an identifier of the nine instruments. -/
def HostOK (h : Host) : Prop :=
  (∀ d ∈ h.goDescs, d ∉ h.processDescs MetricsNamespace) ∧
  (∀ d ∈ instrumentNames, d ∉ h.processDescs MetricsNamespace ∧ d ∉ h.goDescs)

instance (h : Host) : Decidable (HostOK h) := by unfold HostOK; infer_instance

/-- A host for examples: the variable is set, the library collectors describe a few of
their usual identifiers. -/
def demoHost : Host :=
  { getenv := fun k => if k = "MM_CLOUD_INSTALLATION_ID" then "inst-7" else ""
    processDescs := fun ns =>
      [⟨ns, "process", "cpu_seconds_total"⟩, ⟨ns, "process", "open_fds"⟩]
    goDescs := [⟨"go", "", "goroutines"⟩, ⟨"go", "", "threads"⟩] }

/-- A clock for examples: the k-th reading is `1700000000 + k` seconds. -/
def demoClock : Clock :=
  { reading := fun k => 1700000000 + k
    mono := fun _ _ h => add_le_add_left (Nat.cast_le.2 h) _ }

def demoInfo : InstanceInfo :=
  { Version := "0.6.1", BuildNum := "42", Edition := "linux", InstallationID := "abc" }

def demoInfoNoInstallation : InstanceInfo :=
  { Version := "0.6.1", BuildNum := "42", Edition := "linux", InstallationID := "" }

/-- The identifier of an instrument; the library collectors are not instruments. -/
def Collector.instrumentName : Collector → Option FQName
  | .processCollector _ => none
  | .goCollector => none
  | .counter o _ => some o.fqName
  | .gauge o _ => some o.fqName
  | .gaugeVec o _ _ => some o.fqName

/-- The identifiers of the instruments among the collectors of a registry. -/
def instrumentIds (cs : List Collector) : List FQName :=
  cs.filterMap Collector.instrumentName

/-- No counter of `m` exposes a lower value in `b` than in `a`. -/
def countersLE (m : Metrics) (a b : World) : Prop :=
  a.counterValue m.loginCount ≤ b.counterValue m.loginCount ∧
  a.counterValue m.loginFailCount ≤ b.counterValue m.loginFailCount ∧
  a.counterValue m.blocksInsertedCount ≤ b.counterValue m.blocksInsertedCount ∧
  a.counterValue m.blocksDeletedCount ≤ b.counterValue m.blocksDeletedCount

/-- The counter a call adds to, and the whole number it adds (nothing for the gauge
operations and for a negative count, which the counter rejects). -/
def Call.increment (m : Metrics) : Call → Option (Nat × Nat)
  | .incrementLoginCount num =>
    if num < 0 then none else some (m.loginCount, (float64 num).toNat)
  | .incrementLoginFailCount num =>
    if num < 0 then none else some (m.loginFailCount, (float64 num).toNat)
  | .incrementBlocksInserted num =>
    if num < 0 then none else some (m.blocksInsertedCount, (float64 num).toNat)
  | .incrementBlocksDeleted num =>
    if num < 0 then none else some (m.blocksDeletedCount, (float64 num).toNat)
  | .observeBlockCount _ _ => none
  | .observeWorkspaceCount _ => none

/-- The whole number a call hands to a counter (0 for the gauge operations and for a
negative count). -/
def Call.amount : Call → Nat
  | .incrementLoginCount num => (float64 num).toNat
  | .incrementLoginFailCount num => (float64 num).toNat
  | .incrementBlocksInserted num => (float64 num).toNat
  | .incrementBlocksDeleted num => (float64 num).toNat
  | .observeBlockCount _ _ => 0
  | .observeWorkspaceCount _ => 0

/-- The call, made in `w`, keeps the accumulator of its counter below 2^64. -/
def Call.noWrap (m : Metrics) (c : Call) (w : World) : Prop :=
  ∀ p, c.increment m = some p → w.counters p.1 + p.2 < 2 ^ 64

/-- No call of the sequence, made in the world the calls before it lead to, carries the
accumulator of its counter to 2^64. -/
def noWrap (m : Metrics) : List (ℚ × Call) → World → Prop
  | [], _ => True
  | (now, c) :: rest, w =>
    c.noWrap m w ∧
    match c.run (some m) now w with
    | .ok w1 => noWrap m rest w1
    | .error _ => True

/-- The calls that hand a negative value to a counter. -/
def Call.negativeIncrement : Call → Prop
  | .incrementLoginCount num => num < 0
  | .incrementLoginFailCount num => num < 0
  | .incrementBlocksInserted num => num < 0
  | .incrementBlocksDeleted num => num < 0
  | .observeBlockCount _ _ => False
  | .observeWorkspaceCount _ => False

/-- A host whose Go collector describes an identifier of one of the nine instruments. -/
def collidingHost : Host :=
  { demoHost with goDescs := [⟨"focalboard", "blocks", "blocks_total"⟩] }

/-! ## Closed form of construction -/

/-- The pointers `NewMetrics` returns when it runs in `w`. -/
def newMetricsPointers (w : World) : Metrics :=
  { registry := w.nextRegistry, instanceGauge := w.nextGaugeVec, startTime := w.nextGauge,
    loginCount := w.nextCounter, loginFailCount := w.nextCounter + 1,
    blocksInsertedCount := w.nextCounter + 2, blocksDeletedCount := w.nextCounter + 3,
    blockCount := w.nextGaugeVec + 1, workspaceCount := w.nextGauge + 1,
    blockLastActivity := w.nextGauge + 2 }

/-- The contents of the registry `NewMetrics` fills when it runs in `w`. -/
def builtRegistry (h : Host) (info : InstanceInfo) (w : World) : List Collector :=
  .processCollector MetricsNamespace :: .goCollector ::
    instruments (additionalLabels h info) (newMetricsPointers w)

/-- The world `NewMetrics` leaves when it runs in `w`, in closed form. -/
def builtWorld (h : Host) (now : ℚ) (info : InstanceInfo) (w : World) : World :=
  { registries := Function.update w.registries w.nextRegistry (builtRegistry h info w)
    nextRegistry := w.nextRegistry + 1
    counters := Function.update (Function.update (Function.update (Function.update w.counters
      w.nextCounter 0) (w.nextCounter + 1) 0) (w.nextCounter + 2) 0) (w.nextCounter + 3) 0
    nextCounter := w.nextCounter + 4
    gauges := Function.update (Function.update (Function.update w.gauges
      w.nextGauge now) (w.nextGauge + 1) 0) (w.nextGauge + 2) 0
    nextGauge := w.nextGauge + 3
    gaugeVecs := Function.update (Function.update w.gaugeVecs
      w.nextGaugeVec (Function.update (fun _ => none)
        [info.Version, info.BuildNum, info.Edition] (some 1)))
      (w.nextGaugeVec + 1) (fun _ => none)
    nextGaugeVec := w.nextGaugeVec + 2 }

/-! ## Facts about float64 rounding -/

theorem f64UlpAux_spec (fuel a : Nat) (h : a < 2 ^ 53 * 2 ^ fuel) :
    ∃ k, f64UlpAux fuel a = 2 ^ k ∧ a < 2 ^ (53 + k) ∧ (k = 0 ∨ 2 ^ (52 + k) ≤ a) := by
  induction fuel generalizing a with
  | zero => exact ⟨0, by simp [f64UlpAux], by simpa using h, Or.inl rfl⟩
  | succ n ih =>
    by_cases ha : a < 2 ^ 53
    · exact ⟨0, by rw [f64UlpAux, if_pos ha, pow_zero], by simpa using ha, Or.inl rfl⟩
    · have h2 : a / 2 < 2 ^ 53 * 2 ^ n := by
        rw [Nat.div_lt_iff_lt_mul (by norm_num)]
        rw [pow_succ] at h
        omega
      obtain ⟨k, hk, hlt, hge⟩ := ih (a / 2) h2
      refine ⟨k + 1, ?_, ?_, Or.inr ?_⟩
      · rw [f64UlpAux, if_neg ha, hk, pow_succ, Nat.mul_comm]
      · have : 2 ^ (53 + (k + 1)) = 2 ^ (53 + k) * 2 := by rw [← Nat.add_assoc, pow_succ]
        omega
      · have e : 2 ^ (52 + (k + 1)) = 2 ^ (52 + k) * 2 := by rw [← Nat.add_assoc, pow_succ]
        rcases hge with h0 | hge
        · subst h0
          simp only [Nat.add_zero, Nat.zero_add] at *
          omega
        · omega

theorem f64Ulp_spec (a : Nat) :
    ∃ k, f64Ulp a = 2 ^ k ∧ a < 2 ^ (53 + k) ∧ (k = 0 ∨ 2 ^ (52 + k) ≤ a) := by
  apply f64UlpAux_spec
  have h1 : a < 2 ^ a := Nat.lt_two_pow a
  have h2 : 2 ^ a ≤ 2 ^ 53 * 2 ^ a := Nat.le_mul_of_pos_left _ (by positivity)
  omega


theorem f64Ulp_pos (a : Nat) : 0 < f64Ulp a := by
  obtain ⟨k, hk, -, -⟩ := f64Ulp_spec a
  rw [hk]; positivity

theorem f64RoundNat_of_dvd (a : Nat) (h : f64Ulp a ∣ a) : f64RoundNat a = a := by
  have hp := f64Ulp_pos a
  have hr : a % f64Ulp a = 0 := Nat.mod_eq_zero_of_dvd h
  unfold f64RoundNat
  dsimp only
  rw [hr, if_pos (by omega)]
  exact Nat.div_mul_cancel h

theorem f64RoundNat_cases (a : Nat) :
    f64RoundNat a = a / f64Ulp a * f64Ulp a ∨ f64RoundNat a = (a / f64Ulp a + 1) * f64Ulp a := by
  unfold f64RoundNat
  dsimp only
  split_ifs <;> simp

theorem f64RoundNat_ge_floor (a : Nat) : a / f64Ulp a * f64Ulp a ≤ f64RoundNat a := by
  rcases f64RoundNat_cases a with h | h <;> rw [h]
  exact Nat.mul_le_mul_right _ (Nat.le_succ _)

theorem f64Ulp_dvd_mul_pow (c k : Nat) (hc : c ≤ 2 ^ 53) : f64Ulp (c * 2 ^ k) ∣ c * 2 ^ k := by
  obtain ⟨j, hj, -, hge⟩ := f64Ulp_spec (c * 2 ^ k)
  rw [hj]
  rcases hge with h0 | hge
  · subst h0; simp
  · have hle : c * 2 ^ k ≤ 2 ^ 53 * 2 ^ k := Nat.mul_le_mul_right _ hc
    have h1 : 2 ^ (52 + j) ≤ 2 ^ (53 + k) := by
      rw [pow_add 2 53 k]; exact le_trans hge hle
    have hjk : 52 + j ≤ 53 + k := (Nat.pow_le_pow_iff_right (by norm_num)).1 h1
    by_cases hj2 : j ≤ k
    · exact Dvd.dvd.mul_left (pow_dvd_pow 2 hj2) c
    · have hjeq : j = k + 1 := by omega
      subst hjeq
      have e : 52 + (k + 1) = 53 + k := by omega
      rw [e] at hge
      have h2 : c * 2 ^ k = 2 ^ (53 + k) := le_antisymm (by rw [pow_add]; exact hle) hge
      rw [h2]; exact pow_dvd_pow 2 (by omega)

theorem f64RoundNat_idem (a : Nat) : f64RoundNat (f64RoundNat a) = f64RoundNat a := by
  apply f64RoundNat_of_dvd
  obtain ⟨k, hk, hlt, -⟩ := f64Ulp_spec a
  have hq : a / 2 ^ k < 2 ^ 53 := by
    rw [Nat.div_lt_iff_lt_mul (by positivity)]; rw [pow_add] at hlt; exact hlt
  rcases f64RoundNat_cases a with h | h <;> rw [h, hk] <;> apply f64Ulp_dvd_mul_pow <;> omega

theorem f64RoundNat_of_le (a : Nat) (h : a ≤ 2 ^ 53) : f64RoundNat a = a := by
  apply f64RoundNat_of_dvd
  simpa using f64Ulp_dvd_mul_pow a 0 h

theorem le_f64RoundNat_of_le (a y : Nat) (ha : f64RoundNat a = a) (hay : a ≤ y) :
    a ≤ f64RoundNat y := by
  refine le_trans ?_ (f64RoundNat_ge_floor y)
  obtain ⟨k, hk, -, hge⟩ := f64Ulp_spec y
  rw [hk]
  rcases hge with h0 | hge
  · subst h0; simpa using hay
  · obtain ⟨j, hj, hjlt, -⟩ := f64Ulp_spec a
    have hdvd : 2 ^ j ∣ a := by
      rw [← hj]
      rcases f64RoundNat_cases a with h | h <;> rw [ha] at h
      · exact Dvd.intro_left _ h.symm
      · exact Dvd.intro_left _ h.symm
    by_cases hjk : k ≤ j
    · obtain ⟨c, hc⟩ := dvd_trans (pow_dvd_pow 2 hjk) hdvd
      subst hc
      have h3 : c ≤ y / 2 ^ k :=
        (Nat.le_div_iff_mul_le (by positivity)).2 (by rw [Nat.mul_comm]; exact hay)
      calc 2 ^ k * c = c * 2 ^ k := Nat.mul_comm _ _
        _ ≤ y / 2 ^ k * 2 ^ k := Nat.mul_le_mul_right _ h3
    · have h1 : a < 2 ^ (52 + k) :=
        lt_of_lt_of_le hjlt (Nat.pow_le_pow_right (by norm_num) (by omega))
      have h2 : 2 ^ 52 ≤ y / 2 ^ k :=
        (Nat.le_div_iff_mul_le (by positivity)).2 (by rw [← pow_add]; exact hge)
      calc a ≤ 2 ^ (52 + k) := h1.le
        _ = 2 ^ 52 * 2 ^ k := pow_add _ _ _
        _ ≤ y / 2 ^ k * 2 ^ k := Nat.mul_le_mul_right _ h2

theorem float64_of_nonneg (x : Int) (h : 0 ≤ x) : float64 x = (f64RoundNat x.toNat : Int) := by
  rw [float64, if_pos h]

theorem float64_natCast (a : Nat) : float64 (a : Int) = (f64RoundNat a : Int) := by
  rw [float64_of_nonneg _ (Int.ofNat_nonneg a), Int.toNat_ofNat]

theorem float64_nonneg (x : Int) (h : 0 ≤ x) : 0 ≤ float64 x := by
  rw [float64_of_nonneg x h]; exact Int.ofNat_nonneg _

theorem one_le_f64RoundNat (a : Nat) (h : 1 ≤ a) : 1 ≤ f64RoundNat a :=
  le_f64RoundNat_of_le 1 a (f64RoundNat_of_le 1 (by norm_num)) h

theorem float64_neg_iff (x : Int) : float64 x < 0 ↔ x < 0 := by
  constructor
  · intro hx
    by_contra hn
    have := float64_nonneg x (by omega)
    omega
  · intro hx
    rw [float64, if_neg (by omega)]
    have := one_le_f64RoundNat x.natAbs (by omega)
    omega

theorem float64_idem (x : Int) : float64 (float64 x) = float64 x := by
  by_cases hx : 0 ≤ x
  · rw [float64_of_nonneg x hx, float64_natCast, f64RoundNat_idem]
  · have h1 := one_le_f64RoundNat x.natAbs (by omega)
    have e : float64 x = -(f64RoundNat x.natAbs : Int) := by rw [float64, if_neg hx]
    rw [e, float64, if_neg (by omega)]
    have e2 : (-(f64RoundNat x.natAbs : Int)).natAbs = f64RoundNat x.natAbs := by omega
    rw [e2, f64RoundNat_idem]

theorem float64_of_natAbs_le (x : Int) (h : x.natAbs ≤ 2 ^ 53) : float64 x = x := by
  by_cases hx : 0 ≤ x
  · rw [float64_of_nonneg x hx, f64RoundNat_of_le _ (by omega)]; omega
  · rw [float64, if_neg hx, f64RoundNat_of_le _ h]; omega

theorem f64RoundNat_le_pow (x k : Nat) (hk : f64Ulp x = 2 ^ k) (hlt : x < 2 ^ (53 + k)) :
    f64RoundNat x ≤ 2 ^ (53 + k) := by
  have hq : x / 2 ^ k < 2 ^ 53 := by
    rw [Nat.div_lt_iff_lt_mul (by positivity)]; rw [pow_add] at hlt; exact hlt
  rw [pow_add]
  rcases f64RoundNat_cases x with e | e <;> rw [e, hk]
  · exact Nat.mul_le_mul_right _ hq.le
  · exact Nat.mul_le_mul_right _ hq

/-- Rounding to float64 is monotone. -/
theorem f64RoundNat_mono (x y : Nat) (h : x ≤ y) : f64RoundNat x ≤ f64RoundNat y := by
  by_cases hxy : f64RoundNat x ≤ y
  · exact le_f64RoundNat_of_le _ _ (f64RoundNat_idem x) hxy
  · have hlt : y < f64RoundNat x := by omega
    obtain ⟨kx, hkx, hxlt, hxge⟩ := f64Ulp_spec x
    obtain ⟨ky, hky, hylt, hyge⟩ := f64Ulp_spec y
    have hup := f64RoundNat_le_pow x kx hkx hxlt
    have hk : kx = ky := by
      by_contra hne
      rcases Nat.lt_or_gt_of_ne hne with h1 | h1
      · rcases hyge with h0 | hyge
        · omega
        · have h2 : 2 ^ (53 + kx) ≤ 2 ^ (52 + ky) :=
            Nat.pow_le_pow_right (by norm_num) (by omega)
          omega
      · rcases hxge with h0 | hxge
        · omega
        · have h2 : 2 ^ (53 + ky) ≤ 2 ^ (52 + kx) :=
            Nat.pow_le_pow_right (by norm_num) (by omega)
          omega
    subst hk
    have hu : f64Ulp y = f64Ulp x := by rw [hkx, hky]
    have hpos : 0 < f64Ulp x := f64Ulp_pos x
    have hfloor := f64RoundNat_ge_floor x
    have hqle : x / f64Ulp x ≤ y / f64Ulp x := Nat.div_le_div_right h
    have hx := Nat.div_add_mod x (f64Ulp x)
    have hy := Nat.div_add_mod y (f64Ulp x)
    have hrx := Nat.mod_lt x hpos
    have hry := Nat.mod_lt y hpos
    have hs : (x / f64Ulp x + 1) * f64Ulp x = x / f64Ulp x * f64Ulp x + f64Ulp x := by ring
    have hc : f64Ulp x * (x / f64Ulp x) = x / f64Ulp x * f64Ulp x := Nat.mul_comm _ _
    have hxup : f64RoundNat x = (x / f64Ulp x + 1) * f64Ulp x := by
      rcases f64RoundNat_cases x with e | e
      · omega
      · exact e
    have hqy : y / f64Ulp x = x / f64Ulp x := by
      have h3 : y / f64Ulp x < x / f64Ulp x + 1 := by
        rw [Nat.div_lt_iff_lt_mul hpos]; omega
      omega
    rw [hqy] at hy
    have hxdef : f64RoundNat x = f64RoundNat x := rfl
    have hydef : f64RoundNat y = f64RoundNat y := rfl
    unfold f64RoundNat at hxup ⊢
    simp only [hu, hqy] at hxup ⊢
    split_ifs at hxup ⊢ <;> omega

theorem float64_mono_nat (a b : Nat) (h : a ≤ b) : float64 (a : Int) ≤ float64 (b : Int) := by
  rw [float64_natCast, float64_natCast]
  exact Int.ofNat_le.2 (f64RoundNat_mono a b h)

theorem float64_natCast_of_le (a : Nat) (h : a ≤ 2 ^ 53) : float64 (a : Int) = a := by
  rw [float64_natCast, f64RoundNat_of_le a h]

theorem float64_toNat (n : Int) (h : 0 ≤ n) : ((float64 n).toNat : Int) = float64 n :=
  Int.toNat_of_nonneg (float64_nonneg n h)

theorem MustRegister_ok (h : Host) (r : Nat) (c : Collector) (w : World)
    (hc : ∀ d ∈ c.descs h, d ∉ registeredDescs h (w.registries r)) :
    MustRegister h r c w =
      .ok { w with registries := Function.update w.registries r (w.registries r ++ [c]) } := by
  unfold MustRegister
  rw [if_neg]
  rintro ⟨d, hd, hd2⟩
  exact hc d hd hd2

theorem except_ok_bind {α β : Type} (a : α) (f : α → Except Panic β) :
    (Except.ok a >>= f) = f a := rfl

theorem NewMetrics_eq (h : Host) (now : ℚ) (info : InstanceInfo) (w : World) (hh : HostOK h) :
    NewMetrics h now info w = .ok (newMetricsPointers w, builtWorld h now info w) := by
  obtain ⟨h1, h2⟩ := hh
  simp only [instrumentNames, List.forall_mem_cons, List.not_mem_nil, imp_false,
    forall_const, not_false_eq_true, implies_true, and_true, MetricsNamespace] at h1 h2
  obtain ⟨⟨a1, b1⟩, ⟨a2, b2⟩, ⟨a3, b3⟩, ⟨a4, b4⟩, ⟨a5, b5⟩, ⟨a6, b6⟩, ⟨a7, b7⟩, ⟨a8, b8⟩,
    ⟨a9, b9⟩, -⟩ := h2
  unfold NewMetrics
  simp only [NewRegistry, NewCounter, NewGauge, NewGaugeVec, GaugeSetToCurrentTime, GaugeSet,
    GaugeVecSet]
  rw [MustRegister_ok]
  swap
  · simp [registeredDescs]
  simp only [except_ok_bind, Function.update_same, Function.update_idem]
  rw [MustRegister_ok]
  swap
  · simp [registeredDescs, Collector.descs, MetricsNamespace]
    exact h1
  simp only [except_ok_bind, Function.update_same, Function.update_idem]
  rw [MustRegister_ok]
  swap
  · simp [registeredDescs, Collector.descs, Opts.fqName, loginCountOpts, loginFailCountOpts,
      instanceOpts, startTimeOpts, blocksInsertedCountOpts, blocksDeletedCountOpts,
      blockCountOpts, workspaceCountOpts, blockLastActivityOpts, MetricsNamespace,
      MetricsSubsystemSystem, MetricsSubsystemBlocks, MetricsSubsystemWorkspaces,
      a1, b1, a2, b2, a3, b3, a4, b4, a5, b5, a6, b6, a7, b7, a8, b8, a9, b9]
  simp only [except_ok_bind, Function.update_same, Function.update_idem]
  rw [MustRegister_ok]
  swap
  · simp [registeredDescs, Collector.descs, Opts.fqName, loginCountOpts, loginFailCountOpts,
      instanceOpts, startTimeOpts, blocksInsertedCountOpts, blocksDeletedCountOpts,
      blockCountOpts, workspaceCountOpts, blockLastActivityOpts, MetricsNamespace,
      MetricsSubsystemSystem, MetricsSubsystemBlocks, MetricsSubsystemWorkspaces,
      a1, b1, a2, b2, a3, b3, a4, b4, a5, b5, a6, b6, a7, b7, a8, b8, a9, b9]
  simp only [except_ok_bind, Function.update_same, Function.update_idem]
  rw [MustRegister_ok]
  swap
  · simp [registeredDescs, Collector.descs, Opts.fqName, loginCountOpts, loginFailCountOpts,
      instanceOpts, startTimeOpts, blocksInsertedCountOpts, blocksDeletedCountOpts,
      blockCountOpts, workspaceCountOpts, blockLastActivityOpts, MetricsNamespace,
      MetricsSubsystemSystem, MetricsSubsystemBlocks, MetricsSubsystemWorkspaces,
      a1, b1, a2, b2, a3, b3, a4, b4, a5, b5, a6, b6, a7, b7, a8, b8, a9, b9]
  simp only [except_ok_bind, Function.update_same, Function.update_idem]
  rw [MustRegister_ok]
  swap
  · simp [registeredDescs, Collector.descs, Opts.fqName, loginCountOpts, loginFailCountOpts,
      instanceOpts, startTimeOpts, blocksInsertedCountOpts, blocksDeletedCountOpts,
      blockCountOpts, workspaceCountOpts, blockLastActivityOpts, MetricsNamespace,
      MetricsSubsystemSystem, MetricsSubsystemBlocks, MetricsSubsystemWorkspaces,
      a1, b1, a2, b2, a3, b3, a4, b4, a5, b5, a6, b6, a7, b7, a8, b8, a9, b9]
  simp only [except_ok_bind, Function.update_same, Function.update_idem]
  rw [MustRegister_ok]
  swap
  · simp [registeredDescs, Collector.descs, Opts.fqName, loginCountOpts, loginFailCountOpts,
      instanceOpts, startTimeOpts, blocksInsertedCountOpts, blocksDeletedCountOpts,
      blockCountOpts, workspaceCountOpts, blockLastActivityOpts, MetricsNamespace,
      MetricsSubsystemSystem, MetricsSubsystemBlocks, MetricsSubsystemWorkspaces,
      a1, b1, a2, b2, a3, b3, a4, b4, a5, b5, a6, b6, a7, b7, a8, b8, a9, b9]
  simp only [except_ok_bind, Function.update_same, Function.update_idem]
  rw [MustRegister_ok]
  swap
  · simp [registeredDescs, Collector.descs, Opts.fqName, loginCountOpts, loginFailCountOpts,
      instanceOpts, startTimeOpts, blocksInsertedCountOpts, blocksDeletedCountOpts,
      blockCountOpts, workspaceCountOpts, blockLastActivityOpts, MetricsNamespace,
      MetricsSubsystemSystem, MetricsSubsystemBlocks, MetricsSubsystemWorkspaces,
      a1, b1, a2, b2, a3, b3, a4, b4, a5, b5, a6, b6, a7, b7, a8, b8, a9, b9]
  simp only [except_ok_bind, Function.update_same, Function.update_idem]
  rw [MustRegister_ok]
  swap
  · simp [registeredDescs, Collector.descs, Opts.fqName, loginCountOpts, loginFailCountOpts,
      instanceOpts, startTimeOpts, blocksInsertedCountOpts, blocksDeletedCountOpts,
      blockCountOpts, workspaceCountOpts, blockLastActivityOpts, MetricsNamespace,
      MetricsSubsystemSystem, MetricsSubsystemBlocks, MetricsSubsystemWorkspaces,
      a1, b1, a2, b2, a3, b3, a4, b4, a5, b5, a6, b6, a7, b7, a8, b8, a9, b9]
  simp only [except_ok_bind, Function.update_same, Function.update_idem]
  rw [MustRegister_ok]
  swap
  · simp [registeredDescs, Collector.descs, Opts.fqName, loginCountOpts, loginFailCountOpts,
      instanceOpts, startTimeOpts, blocksInsertedCountOpts, blocksDeletedCountOpts,
      blockCountOpts, workspaceCountOpts, blockLastActivityOpts, MetricsNamespace,
      MetricsSubsystemSystem, MetricsSubsystemBlocks, MetricsSubsystemWorkspaces,
      a1, b1, a2, b2, a3, b3, a4, b4, a5, b5, a6, b6, a7, b7, a8, b8, a9, b9]
  simp only [except_ok_bind, Function.update_same, Function.update_idem]
  rw [MustRegister_ok]
  swap
  · simp [registeredDescs, Collector.descs, Opts.fqName, loginCountOpts, loginFailCountOpts,
      instanceOpts, startTimeOpts, blocksInsertedCountOpts, blocksDeletedCountOpts,
      blockCountOpts, workspaceCountOpts, blockLastActivityOpts, MetricsNamespace,
      MetricsSubsystemSystem, MetricsSubsystemBlocks, MetricsSubsystemWorkspaces,
      a1, b1, a2, b2, a3, b3, a4, b4, a5, b5, a6, b6, a7, b7, a8, b8, a9, b9]
  simp only [except_ok_bind, Function.update_same, Function.update_idem]
  simp [newMetricsPointers, builtWorld, builtRegistry, instruments, pure, Except.pure,
    Nat.add_assoc]

theorem except_error_bind {α β : Type} (e : Panic) (f : α → Except Panic β) :
    (Except.error e >>= f) = Except.error e := rfl

/-- When a library collector collides, `NewMetrics` aborts. -/
theorem NewMetrics_error (h : Host) (now : ℚ) (info : InstanceInfo) (w : World)
    (hh : ¬ HostOK h) : NewMetrics h now info w = .error .duplicateRegistration := by
  unfold NewMetrics
  simp only [NewRegistry, NewCounter, NewGauge, NewGaugeVec, GaugeSetToCurrentTime, GaugeSet,
    GaugeVecSet]
  rw [MustRegister]
  split_ifs with k0
  · rfl
  simp only [except_ok_bind, Function.update_same, Function.update_idem]
  rw [MustRegister]
  split_ifs with k1
  · rfl
  simp only [except_ok_bind, Function.update_same, Function.update_idem]
  rw [MustRegister]
  split_ifs with k2
  · rfl
  simp only [except_ok_bind, Function.update_same, Function.update_idem]
  rw [MustRegister]
  split_ifs with k3
  · rfl
  simp only [except_ok_bind, Function.update_same, Function.update_idem]
  rw [MustRegister]
  split_ifs with k4
  · rfl
  simp only [except_ok_bind, Function.update_same, Function.update_idem]
  rw [MustRegister]
  split_ifs with k5
  · rfl
  simp only [except_ok_bind, Function.update_same, Function.update_idem]
  rw [MustRegister]
  split_ifs with k6
  · rfl
  simp only [except_ok_bind, Function.update_same, Function.update_idem]
  rw [MustRegister]
  split_ifs with k7
  · rfl
  simp only [except_ok_bind, Function.update_same, Function.update_idem]
  rw [MustRegister]
  split_ifs with k8
  · rfl
  simp only [except_ok_bind, Function.update_same, Function.update_idem]
  rw [MustRegister]
  split_ifs with k9
  · rfl
  simp only [except_ok_bind, Function.update_same, Function.update_idem]
  rw [MustRegister]
  split_ifs with k10
  · rfl
  simp only [except_ok_bind, Function.update_same, Function.update_idem]
  exfalso
  apply hh
  simp only [registeredDescs, Collector.descs, Opts.fqName, loginCountOpts, loginFailCountOpts,
    instanceOpts, startTimeOpts, blocksInsertedCountOpts, blocksDeletedCountOpts,
    blockCountOpts, workspaceCountOpts, blockLastActivityOpts, MetricsNamespace,
    MetricsSubsystemSystem, MetricsSubsystemBlocks, MetricsSubsystemWorkspaces,
    Function.update_same, List.nil_append, List.cons_append, List.flatMap_cons,
    List.flatMap_nil, List.append_nil, List.mem_append, List.mem_singleton, List.mem_cons,
    List.not_mem_nil, or_false, exists_eq_left, not_or] at k1 k2 k3 k4 k5 k6 k7 k8 k9 k10
  simp only [HostOK, instrumentNames, MetricsNamespace, List.forall_mem_cons, List.not_mem_nil,
    imp_false, forall_const, not_false_eq_true, implies_true, and_true]
  exact ⟨fun d hd hp => k1 ⟨d, hd, hp⟩, ⟨k2.1, k2.2⟩, ⟨k3.1, k3.2.1⟩, ⟨k4.1, k4.2.1⟩,
    ⟨k5.1, k5.2.1⟩, ⟨k6.1, k6.2.1⟩, ⟨k7.1, k7.2.1⟩, ⟨k8.1, k8.2.1⟩, ⟨k9.1, k9.2.1⟩,
    ⟨k10.1, k10.2.1⟩, fun _ hf => hf.elim⟩

/-! ## Facts about the update operations -/

theorem CounterAdd_ok (cell : Nat) (v : Int) (w : World) (hv : 0 ≤ v) :
    CounterAdd cell v w =
      .ok { w with counters :=
        (Function.update w.counters cell ((w.counters cell + v.toNat) % 2 ^ 64)) } := by
  rw [CounterAdd, if_neg (by omega)]

theorem CounterAdd_error (cell : Nat) (v : Int) (w : World) (hv : v < 0) :
    CounterAdd cell v w = .error .counterDecrease := by
  rw [CounterAdd, if_pos hv]

theorem IncrementBlocksInserted_ok (m : Metrics) (now : ℚ) (n : Int) (w : World) (hn : 0 ≤ n) :
    IncrementBlocksInserted (some m) now n w =
      .ok (GaugeSetToCurrentTime m.blockLastActivity now
        { w with counters := (Function.update w.counters m.blocksInsertedCount
            ((w.counters m.blocksInsertedCount + (float64 n).toNat) % 2 ^ 64)) }) := by
  simp only [IncrementBlocksInserted, CounterAdd_ok _ _ _ (float64_nonneg n hn)]
  rfl

theorem IncrementBlocksDeleted_ok (m : Metrics) (now : ℚ) (n : Int) (w : World) (hn : 0 ≤ n) :
    IncrementBlocksDeleted (some m) now n w =
      .ok (GaugeSetToCurrentTime m.blockLastActivity now
        { w with counters := (Function.update w.counters m.blocksDeletedCount
            ((w.counters m.blocksDeletedCount + (float64 n).toNat) % 2 ^ 64)) }) := by
  simp only [IncrementBlocksDeleted, CounterAdd_ok _ _ _ (float64_nonneg n hn)]
  rfl

theorem hostOK_demoHost : HostOK demoHost := by decide

theorem World.wf_empty : World.empty.WF := by
  intro a
  show (0 : Nat) < 2 ^ 64
  norm_num

theorem builtWorld_wf (h : Host) (now : ℚ) (info : InstanceInfo) (w : World) (hw : w.WF) :
    (builtWorld h now info w).WF := by
  intro a
  have h0 : (0 : Nat) < 2 ^ 64 := by norm_num
  simp only [builtWorld, Function.update_apply]
  split_ifs <;> first | exact h0 | exact hw a

theorem newMetricsPointers_distinct (w : World) : (newMetricsPointers w).Distinct := by
  simp [Metrics.Distinct, newMetricsPointers]

theorem newMetricsPointers_allocated (h : Host) (now : ℚ) (info : InstanceInfo) (w : World) :
    (newMetricsPointers w).AllocatedIn (builtWorld h now info w) := by
  simp [Metrics.AllocatedIn, newMetricsPointers, builtWorld]

theorem constructed_built (h : Host) (now : ℚ) (info : InstanceInfo) (w : World) (hw : w.WF) :
    Constructed (newMetricsPointers w) (builtWorld h now info w) :=
  ⟨newMetricsPointers_distinct w, newMetricsPointers_allocated h now info w,
    builtWorld_wf h now info w hw⟩

/-- What `NewMetrics` returns is a constructed registry. -/
theorem NewMetrics_constructed (h : Host) (now : ℚ) (info : InstanceInfo) (w : World)
    (hh : HostOK h) (hw : w.WF) :
    ∃ m w1, NewMetrics h now info w = .ok (m, w1) ∧ Constructed m w1 :=
  ⟨_, _, NewMetrics_eq h now info w hh, constructed_built h now info w hw⟩

theorem CounterAdd_wf (cell : Nat) (v : Int) (w w1 : World) (hw : w.WF)
    (hr : CounterAdd cell v w = .ok w1) : w1.WF := by
  by_cases hv : v < 0
  · rw [CounterAdd_error cell v w hv] at hr; cases hr
  · rw [CounterAdd_ok cell v w (by omega)] at hr
    cases hr
    intro a
    simp only [Function.update_apply]
    split_ifs
    · exact Nat.mod_lt _ (by norm_num)
    · exact hw a

/-- Every update operation keeps a constructed registry constructed. -/
theorem Call.run_constructed (m : Metrics) (now : ℚ) (c : Call) (w w1 : World)
    (hc : Constructed m w) (hr : c.run (some m) now w = .ok w1) : Constructed m w1 := by
  obtain ⟨hd, ha, hw⟩ := hc
  cases c with
  | incrementLoginCount num =>
    have h2 : CounterAdd m.loginCount (float64 num) w = .ok w1 := hr
    refine ⟨hd, ?_, CounterAdd_wf _ _ _ _ hw h2⟩
    unfold CounterAdd at h2
    split_ifs at h2
    cases h2
    exact ha
  | incrementLoginFailCount num =>
    have h2 : CounterAdd m.loginFailCount (float64 num) w = .ok w1 := hr
    refine ⟨hd, ?_, CounterAdd_wf _ _ _ _ hw h2⟩
    unfold CounterAdd at h2
    split_ifs at h2
    cases h2
    exact ha
  | incrementBlocksInserted num =>
    simp only [Call.run, IncrementBlocksInserted] at hr
    by_cases hv : float64 num < 0
    · rw [CounterAdd_error _ _ _ hv] at hr; cases hr
    · rw [CounterAdd_ok _ _ _ (by omega)] at hr
      cases hr
      have h3 := CounterAdd_wf m.blocksInsertedCount (float64 num) w _ hw
        (CounterAdd_ok _ _ _ (by omega))
      exact ⟨hd, ha, fun a => h3 a⟩
  | incrementBlocksDeleted num =>
    simp only [Call.run, IncrementBlocksDeleted] at hr
    by_cases hv : float64 num < 0
    · rw [CounterAdd_error _ _ _ hv] at hr; cases hr
    · rw [CounterAdd_ok _ _ _ (by omega)] at hr
      cases hr
      have h3 := CounterAdd_wf m.blocksDeletedCount (float64 num) w _ hw
        (CounterAdd_ok _ _ _ (by omega))
      exact ⟨hd, ha, fun a => h3 a⟩
  | observeBlockCount blockType count =>
    simp only [Call.run, ObserveBlockCount] at hr
    cases hr
    exact ⟨hd, ha, hw⟩
  | observeWorkspaceCount count =>
    simp only [Call.run, ObserveWorkspaceCount] at hr
    cases hr
    exact ⟨hd, ha, hw⟩

theorem counterValue_update_same (w : World) (cell x : Nat) :
    World.counterValue { w with counters := (Function.update w.counters cell x) } cell
      = float64 (x : Int) := by
  simp [World.counterValue]

theorem runAll_counterAdd_exact (cell : Nat) (ns : List Int) (w : World)
    (hn : ∀ n ∈ ns, 0 ≤ n) (hs : (w.counters cell : Int) + ns.sum ≤ 2 ^ 53) :
    ∃ w1, runAll (fun n => CounterAdd cell (float64 n)) ns w = .ok w1 ∧
      (w1.counters cell : Int) = w.counters cell + ns.sum := by
  induction ns generalizing w with
  | nil => exact ⟨w, rfl, by simp⟩
  | cons n ns ih =>
    have hn0 : 0 ≤ n := hn n (List.mem_cons_self _ _)
    have hns : ∀ k ∈ ns, 0 ≤ k := fun k hk => hn k (List.mem_cons_of_mem _ hk)
    have hsum : 0 ≤ ns.sum := List.sum_nonneg hns
    rw [List.sum_cons] at hs
    have hf : float64 n = n := float64_of_natAbs_le n (by omega)
    have hmod : (w.counters cell + n.toNat) % 2 ^ 64 = w.counters cell + n.toNat :=
      Nat.mod_eq_of_lt (by omega)
    simp only [runAll, hf, CounterAdd_ok cell n w hn0, hmod]
    obtain ⟨w1, hw1, hv⟩ := ih
      { w with counters := (Function.update w.counters cell (w.counters cell + n.toNat)) }
      hns (by simp only [Function.update_same]; omega)
    refine ⟨w1, hw1, ?_⟩
    rw [hv, List.sum_cons]
    simp only [Function.update_same]
    omega

theorem runAll_counterAdd_zero (cell : Nat) (ns : List Int) (w : World)
    (hw : w.counters cell < 2 ^ 64) (hz : ∀ n ∈ ns, n = 0) :
    ∃ w1, runAll (fun n => CounterAdd cell (float64 n)) ns w = .ok w1 ∧
      w1.counters cell = w.counters cell := by
  induction ns generalizing w with
  | nil => exact ⟨w, rfl, rfl⟩
  | cons n ns ih =>
    have hn0 : n = 0 := hz n (List.mem_cons_self _ _)
    subst hn0
    have hf : float64 0 = 0 := by decide
    have hmod : (w.counters cell + (0 : Int).toNat) % 2 ^ 64 = w.counters cell := by
      simpa using Nat.mod_eq_of_lt hw
    simp only [runAll, hf, CounterAdd_ok cell 0 w (le_refl _), hmod]
    obtain ⟨w1, hw1, hv⟩ := ih
      { w with counters := (Function.update w.counters cell (w.counters cell)) }
      (by simpa using hw) (fun k hk => hz k (List.mem_cons_of_mem _ hk))
    exact ⟨w1, hw1, by rw [hv]; simp⟩

theorem eq_zero_of_sum_nonpos (ns : List Int) (hn : ∀ n ∈ ns, 0 ≤ n) (hs : ns.sum ≤ 0) :
    ∀ n ∈ ns, n = 0 := by
  induction ns with
  | nil => intro n hmem; cases hmem
  | cons k ks ih =>
    have hk : 0 ≤ k := hn k (List.mem_cons_self _ _)
    have hks : ∀ n ∈ ks, 0 ≤ n := fun n hmem => hn n (List.mem_cons_of_mem _ hmem)
    have hsum : 0 ≤ ks.sum := List.sum_nonneg hks
    rw [List.sum_cons] at hs
    intro n hmem
    rcases List.mem_cons.1 hmem with rfl | hmem
    · omega
    · exact ih hks (by omega) n hmem

/-- Within 2^53 a counter exposes exactly the sum of what it was given. -/
theorem counter_accumulates (cell : Nat) (ns : List Int) (w : World) (hw : w.WF)
    (hn : ∀ n ∈ ns, 0 ≤ n) (hs : w.counterValue cell + ns.sum ≤ 2 ^ 53) :
    ∃ w1, runAll (fun n => CounterAdd cell (float64 n)) ns w = .ok w1 ∧
      w1.counterValue cell = w.counterValue cell + ns.sum := by
  have hsum : 0 ≤ ns.sum := List.sum_nonneg hn
  by_cases ha : w.counters cell ≤ 2 ^ 53
  · have hv : w.counterValue cell = w.counters cell := float64_natCast_of_le _ ha
    rw [hv] at hs
    obtain ⟨w1, hr, he⟩ := runAll_counterAdd_exact cell ns w hn hs
    refine ⟨w1, hr, ?_⟩
    have h1 : w1.counters cell ≤ 2 ^ 53 := by omega
    rw [hv, ← he]
    exact float64_natCast_of_le _ h1
  · have h1 : float64 ((2 ^ 53 : Nat) : Int) ≤ w.counterValue cell :=
      float64_mono_nat _ _ (by omega)
    rw [float64_natCast_of_le _ (le_refl _)] at h1
    have h2 : ns.sum = 0 := by
      have h3 : ((2 ^ 53 : Nat) : Int) = 2 ^ 53 := by norm_num
      omega
    obtain ⟨w1, hr, he⟩ := runAll_counterAdd_zero cell ns w (hw cell)
      (eq_zero_of_sum_nonpos ns hn (by omega))
    refine ⟨w1, hr, ?_⟩
    simp only [World.counterValue, he, h2, add_zero]

/-! ## The claims -/

/-- C1: every update operation, called with any argument (negative counts included) on a
nil registry, returns normally and leaves the whole world as it was. -/
theorem nil_registry_noop (w : World) (now : ℚ) :
    (∀ num, IncrementLoginCount none num w = .ok w) ∧
    (∀ num, IncrementLoginFailCount none num w = .ok w) ∧
    (∀ num, IncrementBlocksInserted none now num w = .ok w) ∧
    (∀ num, IncrementBlocksDeleted none now num w = .ok w) ∧
    (∀ blockType count, ObserveBlockCount none blockType count w = .ok w) ∧
    (∀ count, ObserveWorkspaceCount none count w = .ok w) :=
  ⟨fun _ => rfl, fun _ => rfl, fun _ => rfl, fun _ => rfl, fun _ _ => rfl, fun _ => rfl⟩

/-- C2, as stated, fails: on a freshly built registry three calls
`IncrementLoginCount(9007199254740993)` raise the login counter from 0 to
27021597764222976, which is neither the sum 27021597764222979 of the arguments nor the
float64 nearest to that sum. -/
theorem login_count_sum_counterexample :
    ∃ m w w1, NewMetrics demoHost 0 demoInfo World.empty = .ok (m, w) ∧
      runAll (IncrementLoginCount (some m))
        [9007199254740993, 9007199254740993, 9007199254740993] w = .ok w1 ∧
      w.counterValue m.loginCount = 0 ∧
      w1.counterValue m.loginCount = 27021597764222976 ∧
      w1.counterValue m.loginCount - w.counterValue m.loginCount ≠
        9007199254740993 + 9007199254740993 + 9007199254740993 ∧
      w1.counterValue m.loginCount - w.counterValue m.loginCount ≠
        float64 (9007199254740993 + 9007199254740993 + 9007199254740993) := by
  have e1 : float64 9007199254740993 = 9007199254740992 := by decide
  have h0 : (builtWorld demoHost 0 demoInfo World.empty).counters 0 = 0 := by
    simp [builtWorld, World.empty]
  have hp : (newMetricsPointers World.empty).loginCount = 0 := rfl
  have hv0 : (builtWorld demoHost 0 demoInfo World.empty).counterValue 0 = 0 := by
    rw [World.counterValue, h0]; decide
  refine ⟨newMetricsPointers World.empty, builtWorld demoHost 0 demoInfo World.empty,
    { builtWorld demoHost 0 demoInfo World.empty with
      counters := (Function.update (builtWorld demoHost 0 demoInfo World.empty).counters 0
        27021597764222976) },
    NewMetrics_eq demoHost 0 demoInfo World.empty hostOK_demoHost, ?_, ?_, ?_, ?_, ?_⟩
  · simp only [runAll, IncrementLoginCount, e1, CounterAdd_ok _ 9007199254740992 _ (by decide),
      hp, Function.update_same, Function.update_idem, h0]
    rfl
  · rw [hp]; exact hv0
  · rw [hp, counterValue_update_same]; decide
  · rw [hp, counterValue_update_same, hv0]; decide
  · rw [hp, counterValue_update_same, hv0]; decide

/-- C2, amended: on a constructed registry whose login counter holds `v`, for non-negative
`n_1..n_k` with `v + n_1 + ... + n_k ≤ 2^53`, the calls `IncrementLoginCount(n_1)`, ...,
`IncrementLoginCount(n_k)` in order all return and raise the login counter by exactly
`n_1 + ... + n_k`; the same holds for `IncrementLoginFailCount` and the login-failure
counter. -/
theorem login_count_accumulates (m : Metrics) (w : World) (ns : List Int)
    (hc : Constructed m w) (hn : ∀ n ∈ ns, 0 ≤ n) :
    (w.counterValue m.loginCount + ns.sum ≤ 2 ^ 53 →
      ∃ w1, runAll (IncrementLoginCount (some m)) ns w = .ok w1 ∧
        w1.counterValue m.loginCount = w.counterValue m.loginCount + ns.sum) ∧
    (w.counterValue m.loginFailCount + ns.sum ≤ 2 ^ 53 →
      ∃ w1, runAll (IncrementLoginFailCount (some m)) ns w = .ok w1 ∧
        w1.counterValue m.loginFailCount = w.counterValue m.loginFailCount + ns.sum) :=
  ⟨fun hs => counter_accumulates m.loginCount ns w hc.2.2 hn hs,
   fun hs => counter_accumulates m.loginFailCount ns w hc.2.2 hn hs⟩

/-- Witness for `login_count_accumulates`: on a freshly built registry the calls
`IncrementLoginCount(3)`, `IncrementLoginCount(4)` raise the login counter by 7. -/
theorem login_count_accumulates_witness :
    ∃ w1, runAll (IncrementLoginCount (some (newMetricsPointers World.empty))) [3, 4]
        (builtWorld demoHost 0 demoInfo World.empty) = .ok w1 ∧
      w1.counterValue (newMetricsPointers World.empty).loginCount =
        (builtWorld demoHost 0 demoInfo World.empty).counterValue
          (newMetricsPointers World.empty).loginCount + [3, 4].sum :=
  (login_count_accumulates (newMetricsPointers World.empty)
    (builtWorld demoHost 0 demoInfo World.empty) [3, 4]
    (constructed_built demoHost 0 demoInfo World.empty World.wf_empty)
    (by decide)).1
    (by
      have h0 : (builtWorld demoHost 0 demoInfo World.empty).counterValue
          (newMetricsPointers World.empty).loginCount = 0 := by
        simp only [World.counterValue, builtWorld, newMetricsPointers, World.empty]
        simp
        decide
      rw [h0]; decide)

/-- C3, as stated, fails: after `ObserveBlockCount("card", 5)` and then
`ObserveBlockCount("card", 9007199254740993)` the gauge at "card" holds 9007199254740992,
which is not the second count. -/
theorem block_count_equals_counterexample :
    ∃ m w w1 w2, NewMetrics demoHost 0 demoInfo World.empty = .ok (m, w) ∧
      ObserveBlockCount (some m) "card" 5 w = .ok w1 ∧
      ObserveBlockCount (some m) "card" 9007199254740993 w1 = .ok w2 ∧
      w2.gaugeVecs m.blockCount ["card"] = some 9007199254740992 ∧
      w2.gaugeVecs m.blockCount ["card"] ≠ some ((9007199254740993 : Int) : ℚ) := by
  have e1 : float64 9007199254740993 = 9007199254740992 := by decide
  refine ⟨_, _, _, _, NewMetrics_eq demoHost 0 demoInfo World.empty hostOK_demoHost, rfl, rfl,
    ?_, ?_⟩
  · simp [GaugeVecSet, e1]
  · simp [GaugeVecSet, e1]

/-- C3, amended: `ObserveBlockCount` is an absolute overwrite. For every registry, block type
`t` and counts `c1`, `c2`, after `ObserveBlockCount(t, c1)` followed by
`ObserveBlockCount(t, c2)` the block-count gauge at label `t` holds `float64(c2)`, which is
`c2` itself whenever `|c2| ≤ 2^53`; the resulting state is the one reached by calling
`ObserveBlockCount(t, c2)` alone, and calling it once more with the same count changes
nothing. -/
theorem block_count_overwrite (m : Metrics) (w : World) (t : String) (c1 c2 : Int) :
    ∃ w1 w2, ObserveBlockCount (some m) t c1 w = .ok w1 ∧
      ObserveBlockCount (some m) t c2 w1 = .ok w2 ∧
      w2.gaugeVecs m.blockCount [t] = some ((float64 c2 : Int) : ℚ) ∧
      (c2.natAbs ≤ 2 ^ 53 → w2.gaugeVecs m.blockCount [t] = some (c2 : ℚ)) ∧
      ObserveBlockCount (some m) t c2 w = .ok w2 ∧
      ObserveBlockCount (some m) t c2 w2 = .ok w2 := by
  refine ⟨_, _, rfl, rfl, ?_, ?_, ?_, ?_⟩
  · simp [GaugeVecSet]
  · intro hc
    simp [GaugeVecSet, float64_of_natAbs_le c2 hc]
  · simp [ObserveBlockCount, GaugeVecSet]
  · simp [ObserveBlockCount, GaugeVecSet]

/-- Witness for `block_count_overwrite`: counts 5 then 8 for "card" leave 8. -/
theorem block_count_overwrite_witness :
    ∃ w1 w2, ObserveBlockCount (some (newMetricsPointers World.empty)) "card" 5
        (builtWorld demoHost 0 demoInfo World.empty) = .ok w1 ∧
      ObserveBlockCount (some (newMetricsPointers World.empty)) "card" 8 w1 = .ok w2 ∧
      w2.gaugeVecs (newMetricsPointers World.empty).blockCount ["card"] = some ((8 : Int) : ℚ) := by
  obtain ⟨w1, w2, h1, h2, -, h4, -, -⟩ := block_count_overwrite
    (newMetricsPointers World.empty) (builtWorld demoHost 0 demoInfo World.empty) "card" 5 8
  exact ⟨w1, w2, h1, h2, h4 (by decide)⟩

/-- C4, as stated, fails: on a freshly built registry `IncrementBlocksInserted(9007199254740993)`
raises the blocks-inserted counter from 0 to 9007199254740992, so the call did not add its
argument. -/
theorem blocks_inserted_adds_counterexample :
    ∃ m w w1, NewMetrics demoHost 0 demoInfo World.empty = .ok (m, w) ∧
      IncrementBlocksInserted (some m) 1700000000 9007199254740993 w = .ok w1 ∧
      w.counterValue m.blocksInsertedCount = 0 ∧
      w1.counterValue m.blocksInsertedCount = 9007199254740992 ∧
      w1.counterValue m.blocksInsertedCount ≠
        w.counterValue m.blocksInsertedCount + 9007199254740993 := by
  have e1 : float64 9007199254740993 = 9007199254740992 := by decide
  have h0 : (builtWorld demoHost 0 demoInfo World.empty).counters
      (newMetricsPointers World.empty).blocksInsertedCount = 0 := by
    simp [builtWorld, newMetricsPointers, World.empty]
  have hv0 : (builtWorld demoHost 0 demoInfo World.empty).counterValue
      (newMetricsPointers World.empty).blocksInsertedCount = 0 := by
    rw [World.counterValue, h0]; decide
  have hv1 : World.counterValue (GaugeSetToCurrentTime
      (newMetricsPointers World.empty).blockLastActivity 1700000000
      { builtWorld demoHost 0 demoInfo World.empty with
        counters := (Function.update (builtWorld demoHost 0 demoInfo World.empty).counters
          (newMetricsPointers World.empty).blocksInsertedCount
          (((builtWorld demoHost 0 demoInfo World.empty).counters
            (newMetricsPointers World.empty).blocksInsertedCount +
              (float64 9007199254740993).toNat) % 2 ^ 64)) })
      (newMetricsPointers World.empty).blocksInsertedCount = 9007199254740992 := by
    simp only [World.counterValue, GaugeSetToCurrentTime, GaugeSet, Function.update_same, h0, e1]
    decide
  refine ⟨_, _, _, NewMetrics_eq demoHost 0 demoInfo World.empty hostOK_demoHost,
    IncrementBlocksInserted_ok _ _ _ _ (by decide), hv0, hv1, ?_⟩
  rw [hv1, hv0]
  decide

theorem counterAdd_exact_value (cell : Nat) (n : Int) (w : World) (hw : w.WF) (hn : 0 ≤ n)
    (hs : w.counterValue cell + n ≤ 2 ^ 53) :
    float64 (((w.counters cell + (float64 n).toNat) % 2 ^ 64 : Nat) : Int) =
      w.counterValue cell + n := by
  obtain ⟨w1, hr, hv⟩ := counter_accumulates cell [n] w hw
    (by intro k hk; rw [List.mem_singleton.1 hk]; exact hn) (by simpa using hs)
  simp only [runAll, CounterAdd_ok cell (float64 n) w (float64_nonneg n hn)] at hr
  cases hr
  simpa [World.counterValue] using hv

/-- C4, amended: on a constructed registry, for every `n ≥ 0`, `IncrementBlocksInserted(n)`
and `IncrementBlocksDeleted(n)` each return, add `n` to their own counter whenever the
counter's value `v` satisfies `v + n ≤ 2^53`, and set the shared last-block-activity gauge to
the current time, the clock reading of the call; the gauge's value after the call is `≥`
every reading taken from the clock before the call. -/
theorem blocks_increment_sets_activity (m : Metrics) (w : World) (n : Int) (clock : Clock)
    (i d : Nat) (hc : Constructed m w) (hn : 0 ≤ n) :
    (∃ w1, IncrementBlocksInserted (some m) (clock.reading (i + d)) n w = .ok w1 ∧
      (w.counterValue m.blocksInsertedCount + n ≤ 2 ^ 53 →
        w1.counterValue m.blocksInsertedCount = w.counterValue m.blocksInsertedCount + n) ∧
      w1.gauges m.blockLastActivity = clock.reading (i + d) ∧
      clock.reading i ≤ w1.gauges m.blockLastActivity) ∧
    (∃ w1, IncrementBlocksDeleted (some m) (clock.reading (i + d)) n w = .ok w1 ∧
      (w.counterValue m.blocksDeletedCount + n ≤ 2 ^ 53 →
        w1.counterValue m.blocksDeletedCount = w.counterValue m.blocksDeletedCount + n) ∧
      w1.gauges m.blockLastActivity = clock.reading (i + d) ∧
      clock.reading i ≤ w1.gauges m.blockLastActivity) := by
  have hw := hc.2.2
  have hclock : clock.reading i ≤ clock.reading (i + d) := clock.mono i (i + d) (by omega)
  constructor
  · refine ⟨_, IncrementBlocksInserted_ok m _ n w hn, ?_, ?_, ?_⟩
    · intro hs
      simp only [World.counterValue, GaugeSetToCurrentTime, GaugeSet, Function.update_same]
      exact counterAdd_exact_value _ n w hw hn hs
    · simp [GaugeSetToCurrentTime, GaugeSet]
    · simpa [GaugeSetToCurrentTime, GaugeSet] using hclock
  · refine ⟨_, IncrementBlocksDeleted_ok m _ n w hn, ?_, ?_, ?_⟩
    · intro hs
      simp only [World.counterValue, GaugeSetToCurrentTime, GaugeSet, Function.update_same]
      exact counterAdd_exact_value _ n w hw hn hs
    · simp [GaugeSetToCurrentTime, GaugeSet]
    · simpa [GaugeSetToCurrentTime, GaugeSet] using hclock

/-- Witness for `blocks_increment_sets_activity`: a freshly built registry, `n = 6`, the
clock whose k-th reading is `1700000000 + k`, a timestamp read at tick 3 and a call at
tick 5. -/
theorem blocks_increment_sets_activity_witness :
    ∃ w1, IncrementBlocksInserted (some (newMetricsPointers World.empty)) 1700000005 6
        (builtWorld demoHost 0 demoInfo World.empty) = .ok w1 ∧
      w1.counterValue (newMetricsPointers World.empty).blocksInsertedCount = 6 ∧
      (1700000003 : ℚ) ≤ w1.gauges (newMetricsPointers World.empty).blockLastActivity := by
  obtain ⟨⟨w1, h1, h3, -, h5⟩, -⟩ := blocks_increment_sets_activity
    (newMetricsPointers World.empty) (builtWorld demoHost 0 demoInfo World.empty) 6
    demoClock 3 2
    (constructed_built demoHost 0 demoInfo World.empty World.wf_empty) (by decide)
  have h0 : (builtWorld demoHost 0 demoInfo World.empty).counterValue
      (newMetricsPointers World.empty).blocksInsertedCount = 0 := by
    simp only [World.counterValue, builtWorld, newMetricsPointers, World.empty]
    simp
    decide
  have e1 : demoClock.reading (3 + 2) = 1700000005 := by norm_num [demoClock]
  have e2 : demoClock.reading 3 = 1700000003 := by norm_num [demoClock]
  rw [e1] at h1
  rw [e2] at h5
  refine ⟨w1, h1, ?_, h5⟩
  rw [h3 (by rw [h0]; decide), h0]
  decide

/-! ### Registration -/

theorem additionalLabels_of_ne (h : Host) (info : InstanceInfo) (hi : info.InstallationID ≠ "") :
    additionalLabels h info =
      [(MetricsCloudInstallationLabel, h.getenv "MM_CLOUD_INSTALLATION_ID")] := by
  rw [additionalLabels, if_pos hi]

theorem additionalLabels_of_eq (h : Host) (info : InstanceInfo) (hi : info.InstallationID = "") :
    additionalLabels h info = [] := by
  rw [additionalLabels, if_neg (by simp [hi])]

theorem builtWorld_registry (h : Host) (now : ℚ) (info : InstanceInfo) (w : World) :
    (builtWorld h now info w).registries (newMetricsPointers w).registry =
      .processCollector MetricsNamespace :: .goCollector ::
        instruments (additionalLabels h info) (newMetricsPointers w) := by
  simp [builtWorld, newMetricsPointers, builtRegistry]

theorem instrumentIds_instruments (l : Labels) (m : Metrics) :
    instrumentIds (instruments l m) = instrumentNames := by
  simp [instrumentIds, instruments, instrumentNames, Collector.instrumentName, Opts.fqName,
    loginCountOpts, loginFailCountOpts, instanceOpts, startTimeOpts, blocksInsertedCountOpts,
    blocksDeletedCountOpts, blockCountOpts, workspaceCountOpts, blockLastActivityOpts,
    MetricsNamespace, MetricsSubsystemSystem, MetricsSubsystemBlocks,
    MetricsSubsystemWorkspaces]

theorem instrumentNames_nodup : instrumentNames.Nodup := by decide

/-- The registration abort of the model is reachable: a library collector that describes
`focalboard/blocks/blocks_total` makes `NewMetrics` panic. -/
theorem NewMetrics_collision :
    NewMetrics collidingHost 0 demoInfo World.empty = .error .duplicateRegistration := by
  rfl

/-- C5, as stated, fails: with the non-empty installation id "abc" the registry built by
`NewMetrics` holds the process collector, which carries no installation-id label. -/
theorem installation_label_counterexample :
    ∃ m w, NewMetrics demoHost 0 demoInfo World.empty = .ok (m, w) ∧
      demoInfo.InstallationID ≠ "" ∧
      Collector.processCollector MetricsNamespace ∈ w.registries m.registry ∧
      ¬ (Collector.processCollector MetricsNamespace).hasConstLabel
        MetricsCloudInstallationLabel := by
  refine ⟨_, _, NewMetrics_eq demoHost 0 demoInfo World.empty hostOK_demoHost, by decide, ?_,
    by decide⟩
  rw [builtWorld_registry]
  exact List.mem_cons_self _ _

/-- C5, amended: the registry built by `NewMetrics` holds the process collector, the Go
collector and the nine instruments. If `InstallationID` is non-empty, each of the nine
instruments carries the constant label "installationId", and the process collector and the
Go collector do not; if `InstallationID` is empty, nothing registered carries that label. -/
theorem installation_label_on_instruments (h : Host) (now : ℚ) (info : InstanceInfo)
    (w : World) (hh : HostOK h) :
    ∃ m w1, NewMetrics h now info w = .ok (m, w1) ∧
      w1.registries m.registry = .processCollector MetricsNamespace :: .goCollector ::
        instruments (additionalLabels h info) m ∧
      (info.InstallationID ≠ "" →
        ∀ c ∈ instruments (additionalLabels h info) m,
          c.hasConstLabel MetricsCloudInstallationLabel) ∧
      ¬ (Collector.processCollector MetricsNamespace).hasConstLabel
        MetricsCloudInstallationLabel ∧
      ¬ Collector.goCollector.hasConstLabel MetricsCloudInstallationLabel ∧
      (info.InstallationID = "" →
        ∀ c ∈ w1.registries m.registry, ¬ c.hasConstLabel MetricsCloudInstallationLabel) := by
  refine ⟨_, _, NewMetrics_eq h now info w hh, builtWorld_registry h now info w, ?_, by decide,
    by decide, ?_⟩
  · intro hi c hcmem
    rw [additionalLabels_of_ne h info hi] at hcmem
    simp only [instruments, List.mem_cons, List.mem_singleton, List.not_mem_nil,
      or_false] at hcmem
    rcases hcmem with rfl | rfl | rfl | rfl | rfl | rfl | rfl | rfl | rfl <;>
      simp [Collector.hasConstLabel, Collector.constLabels, loginCountOpts, loginFailCountOpts,
        instanceOpts, startTimeOpts, blocksInsertedCountOpts, blocksDeletedCountOpts,
        blockCountOpts, workspaceCountOpts, blockLastActivityOpts]
  · intro hi c hcmem
    rw [builtWorld_registry, additionalLabels_of_eq h info hi] at hcmem
    simp only [instruments, List.mem_cons, List.mem_singleton, List.not_mem_nil,
      or_false] at hcmem
    rcases hcmem with rfl | rfl | rfl | rfl | rfl | rfl | rfl | rfl | rfl | rfl | rfl <;>
      simp [Collector.hasConstLabel, Collector.constLabels, loginCountOpts, loginFailCountOpts,
        instanceOpts, startTimeOpts, blocksInsertedCountOpts, blocksDeletedCountOpts,
        blockCountOpts, workspaceCountOpts, blockLastActivityOpts]

/-- Witness for `installation_label_on_instruments`: the example host, with installation id
"abc". -/
theorem installation_label_on_instruments_witness :
    ∃ m w1, NewMetrics demoHost 0 demoInfo World.empty = .ok (m, w1) ∧
      ∀ c ∈ instruments (additionalLabels demoHost demoInfo) m,
        c.hasConstLabel MetricsCloudInstallationLabel := by
  obtain ⟨m, w1, h1, -, h3, -⟩ :=
    installation_label_on_instruments demoHost 0 demoInfo World.empty hostOK_demoHost
  exact ⟨m, w1, h1, h3 (by decide)⟩

/-- C6: the identifiers (namespace, subsystem, name) of the nine instruments that
`NewMetrics` registers are pairwise distinct, whatever the `InstanceInfo`; and whenever the
two library collectors collide neither with each other nor with an instrument, `NewMetrics`
returns (the duplicate-registration abort is not reached) with exactly these nine instrument
identifiers in its registry. -/
theorem instrument_names_unique :
    instrumentNames.Nodup ∧
    (∀ (l : Labels) (m : Metrics), instrumentIds (instruments l m) = instrumentNames) ∧
    (∀ (h : Host) (now : ℚ) (info : InstanceInfo) (w : World), HostOK h →
      ∃ m w1, NewMetrics h now info w = .ok (m, w1) ∧
        w1.registries m.registry = .processCollector MetricsNamespace :: .goCollector ::
          instruments (additionalLabels h info) m ∧
        instrumentIds (w1.registries m.registry) = instrumentNames ∧
        (instrumentIds (w1.registries m.registry)).Nodup) := by
  refine ⟨instrumentNames_nodup, instrumentIds_instruments, ?_⟩
  intro h now info w hh
  have e : instrumentIds ((builtWorld h now info w).registries (newMetricsPointers w).registry)
      = instrumentNames := by
    rw [builtWorld_registry]
    exact instrumentIds_instruments _ _
  refine ⟨_, _, NewMetrics_eq h now info w hh, builtWorld_registry h now info w, e, ?_⟩
  rw [e]
  exact instrumentNames_nodup

/-- Witness for `instrument_names_unique`: the example host. -/
theorem instrument_names_unique_witness :
    ∃ m w1, NewMetrics demoHost 0 demoInfo World.empty = .ok (m, w1) ∧
      (instrumentIds (w1.registries m.registry)).Nodup := by
  obtain ⟨m, w1, h1, -, -, h4⟩ :=
    instrument_names_unique.2.2 demoHost 0 demoInfo World.empty hostOK_demoHost
  exact ⟨m, w1, h1, h4⟩

/-- C8: when `InstallationID` is non-empty, every instrument registered by `NewMetrics`
carries exactly one constant label, "installationId", whose value is the environment variable
`MM_CLOUD_INSTALLATION_ID` as read at construction, not `InstallationID`: two constructions
on the same host with any two non-empty installation ids both succeed and register
collectors with identical constant label sets. -/
theorem installation_label_from_environment (h : Host) (now1 now2 : ℚ)
    (info1 info2 : InstanceInfo) (wa wb : World) (hh : HostOK h)
    (h1 : info1.InstallationID ≠ "") (h2 : info2.InstallationID ≠ "") :
    additionalLabels h info1 =
      [(MetricsCloudInstallationLabel, h.getenv "MM_CLOUD_INSTALLATION_ID")] ∧
    additionalLabels h info1 = additionalLabels h info2 ∧
    ∃ m1 w1 m2 w2, NewMetrics h now1 info1 wa = .ok (m1, w1) ∧
      NewMetrics h now2 info2 wb = .ok (m2, w2) ∧
      (w1.registries m1.registry).map Collector.constLabels =
        (w2.registries m2.registry).map Collector.constLabels ∧
      (w1.registries m1.registry).map Collector.constLabels =
        [] :: [] :: List.replicate 9
          [(MetricsCloudInstallationLabel, h.getenv "MM_CLOUD_INSTALLATION_ID")] ∧
      instrumentIds (w1.registries m1.registry) = instrumentNames ∧
      (∀ c ∈ w1.registries m1.registry, c.instrumentName ≠ none →
        c.constLabels =
          [(MetricsCloudInstallationLabel, h.getenv "MM_CLOUD_INSTALLATION_ID")]) ∧
      (∀ c ∈ w2.registries m2.registry, c.instrumentName ≠ none →
        c.constLabels =
          [(MetricsCloudInstallationLabel, h.getenv "MM_CLOUD_INSTALLATION_ID")]) := by
  have key : ∀ (now : ℚ) (info : InstanceInfo) (w : World), info.InstallationID ≠ "" →
      ((builtWorld h now info w).registries (newMetricsPointers w).registry).map
          Collector.constLabels =
        [] :: [] :: List.replicate 9
          [(MetricsCloudInstallationLabel, h.getenv "MM_CLOUD_INSTALLATION_ID")] ∧
      ∀ c ∈ (builtWorld h now info w).registries (newMetricsPointers w).registry,
        c.instrumentName ≠ none →
        c.constLabels =
          [(MetricsCloudInstallationLabel, h.getenv "MM_CLOUD_INSTALLATION_ID")] := by
    intro now info w hi
    rw [builtWorld_registry, additionalLabels_of_ne h info hi]
    constructor
    · simp [instruments, Collector.constLabels, loginCountOpts, loginFailCountOpts,
        instanceOpts, startTimeOpts, blocksInsertedCountOpts, blocksDeletedCountOpts,
        blockCountOpts, workspaceCountOpts, blockLastActivityOpts, List.replicate]
    · intro c hcmem hins
      simp only [instruments, List.mem_cons, List.mem_singleton, List.not_mem_nil,
        or_false] at hcmem
      rcases hcmem with rfl | rfl | rfl | rfl | rfl | rfl | rfl | rfl | rfl | rfl | rfl
      · exact absurd rfl hins
      · exact absurd rfl hins
      all_goals rfl
  obtain ⟨ka, kb⟩ := key now1 info1 wa h1
  obtain ⟨kc, kd⟩ := key now2 info2 wb h2
  refine ⟨additionalLabels_of_ne h info1 h1, ?_, _, _, _, _, NewMetrics_eq h now1 info1 wa hh,
    NewMetrics_eq h now2 info2 wb hh, ?_, ka, ?_, kb, kd⟩
  · rw [additionalLabels_of_ne h info1 h1, additionalLabels_of_ne h info2 h2]
  · rw [ka, kc]
  · rw [builtWorld_registry]
    exact instrumentIds_instruments _ _

/-- Witness for `installation_label_from_environment`: installation ids "abc" and "xyz" on
the example host; every registered instrument carries the label value "inst-7" of the
environment. -/
theorem installation_label_from_environment_witness :
    ∃ m1 w1, NewMetrics demoHost 0 demoInfo World.empty = .ok (m1, w1) ∧
      ∀ c ∈ w1.registries m1.registry, c.instrumentName ≠ none →
        c.constLabels = [("installationId", "inst-7")] := by
  obtain ⟨-, -, m1, w1, m2, w2, e1, -, -, -, -, k1, -⟩ :=
    installation_label_from_environment demoHost 0 1 demoInfo
      { demoInfo with InstallationID := "xyz" } World.empty World.empty hostOK_demoHost
      (by decide) (by decide)
  exact ⟨m1, w1, e1, k1⟩

/-! ### Frame and monotonicity -/

theorem Metrics.distinct_facts (m : Metrics) (hd : m.Distinct) :
    ((m.loginCount ≠ m.loginFailCount ∧ m.loginCount ≠ m.blocksInsertedCount ∧
        m.loginCount ≠ m.blocksDeletedCount) ∧
      (m.loginFailCount ≠ m.blocksInsertedCount ∧ m.loginFailCount ≠ m.blocksDeletedCount) ∧
      m.blocksInsertedCount ≠ m.blocksDeletedCount) ∧
    ((m.startTime ≠ m.workspaceCount ∧ m.startTime ≠ m.blockLastActivity) ∧
      m.workspaceCount ≠ m.blockLastActivity) ∧
    m.instanceGauge ≠ m.blockCount := by
  simpa only [Metrics.Distinct, List.nodup_cons, List.mem_cons, List.mem_singleton,
    List.not_mem_nil, not_or, List.nodup_nil, and_true, not_false_eq_true, ne_eq] using hd

theorem CounterAdd_eq_ok (cell : Nat) (v : Int) (w w1 : World)
    (hr : CounterAdd cell v w = .ok w1) :
    0 ≤ v ∧ w1 = { w with counters :=
      (Function.update w.counters cell ((w.counters cell + v.toNat) % 2 ^ 64)) } := by
  by_cases hv : v < 0
  · rw [CounterAdd_error cell v w hv] at hr; cases hr
  · rw [CounterAdd_ok cell v w (by omega)] at hr
    cases hr
    exact ⟨by omega, rfl⟩

theorem IncrementBlocksInserted_eq_ok (m : Metrics) (now : ℚ) (n : Int) (w w1 : World)
    (hr : IncrementBlocksInserted (some m) now n w = .ok w1) :
    0 ≤ n ∧ w1 = GaugeSetToCurrentTime m.blockLastActivity now
      { w with counters := (Function.update w.counters m.blocksInsertedCount
          ((w.counters m.blocksInsertedCount + (float64 n).toNat) % 2 ^ 64)) } := by
  by_cases hn : 0 ≤ n
  · rw [IncrementBlocksInserted_ok m now n w hn] at hr
    cases hr
    exact ⟨hn, rfl⟩
  · have hv : float64 n < 0 := (float64_neg_iff n).2 (by omega)
    simp only [IncrementBlocksInserted, CounterAdd_error _ _ _ hv] at hr
    cases hr

theorem IncrementBlocksDeleted_eq_ok (m : Metrics) (now : ℚ) (n : Int) (w w1 : World)
    (hr : IncrementBlocksDeleted (some m) now n w = .ok w1) :
    0 ≤ n ∧ w1 = GaugeSetToCurrentTime m.blockLastActivity now
      { w with counters := (Function.update w.counters m.blocksDeletedCount
          ((w.counters m.blocksDeletedCount + (float64 n).toNat) % 2 ^ 64)) } := by
  by_cases hn : 0 ≤ n
  · rw [IncrementBlocksDeleted_ok m now n w hn] at hr
    cases hr
    exact ⟨hn, rfl⟩
  · have hv : float64 n < 0 := (float64_neg_iff n).2 (by omega)
    simp only [IncrementBlocksDeleted, CounterAdd_error _ _ _ hv] at hr
    cases hr

/-- C10: on a constructed registry each update operation that returns changes only its
designated instruments: the snapshot of the registry after the call is the snapshot before
it with only the login counter replaced (`IncrementLoginCount`), only the login-failure
counter (`IncrementLoginFailCount`), only the blocks-inserted counter and the last-activity
gauge (`IncrementBlocksInserted`), only the blocks-deleted counter and the last-activity
gauge (`IncrementBlocksDeleted`), only the block-count entry of label `t`
(`ObserveBlockCount(t, c)`; entries of other block types stay), only the workspace-count
gauge (`ObserveWorkspaceCount`); the registered collectors never change, and neither does the
accumulator of any counter other than the one the call adds to. -/
theorem update_frame (m : Metrics) (w : World) (now : ℚ) (hc : Constructed m w) :
    (∀ num w1, IncrementLoginCount (some m) num w = .ok w1 →
      observe m w1 = { observe m w with loginCount := w1.counterValue m.loginCount } ∧
      w1.registries = w.registries ∧
      ∀ a, a ≠ m.loginCount → w1.counters a = w.counters a) ∧
    (∀ num w1, IncrementLoginFailCount (some m) num w = .ok w1 →
      observe m w1 = { observe m w with
        loginFailCount := w1.counterValue m.loginFailCount } ∧
      w1.registries = w.registries ∧
      ∀ a, a ≠ m.loginFailCount → w1.counters a = w.counters a) ∧
    (∀ num w1, IncrementBlocksInserted (some m) now num w = .ok w1 →
      observe m w1 = { observe m w with
        blocksInsertedCount := w1.counterValue m.blocksInsertedCount,
        blockLastActivity := now } ∧
      w1.registries = w.registries ∧
      ∀ a, a ≠ m.blocksInsertedCount → w1.counters a = w.counters a) ∧
    (∀ num w1, IncrementBlocksDeleted (some m) now num w = .ok w1 →
      observe m w1 = { observe m w with
        blocksDeletedCount := w1.counterValue m.blocksDeletedCount,
        blockLastActivity := now } ∧
      w1.registries = w.registries ∧
      ∀ a, a ≠ m.blocksDeletedCount → w1.counters a = w.counters a) ∧
    (∀ t count w1, ObserveBlockCount (some m) t count w = .ok w1 →
      observe m w1 = { observe m w with
        blockCount := Function.update (observe m w).blockCount t
          (some ((float64 count : Int) : ℚ)) } ∧
      w1.registries = w.registries ∧ w1.counters = w.counters) ∧
    (∀ count w1, ObserveWorkspaceCount (some m) count w = .ok w1 →
      observe m w1 = { observe m w with workspaceCount := ((float64 count : Int) : ℚ) } ∧
      w1.registries = w.registries ∧ w1.counters = w.counters) := by
  obtain ⟨⟨⟨c12, c13, c14⟩, ⟨c23, c24⟩, c34⟩, ⟨⟨g12, g13⟩, g23⟩, v12⟩ :=
    Metrics.distinct_facts m hc.1
  refine ⟨?_, ?_, ?_, ?_, ?_, ?_⟩
  · intro num w1 hr
    obtain ⟨-, rfl⟩ := CounterAdd_eq_ok _ _ _ _ hr
    refine ⟨?_, rfl, fun a ha => Function.update_noteq ha _ _⟩
    simp [observe, World.counterValue, Function.update_noteq, c12.symm, c13.symm, c14.symm]
  · intro num w1 hr
    obtain ⟨-, rfl⟩ := CounterAdd_eq_ok _ _ _ _ hr
    refine ⟨?_, rfl, fun a ha => Function.update_noteq ha _ _⟩
    simp [observe, World.counterValue, Function.update_noteq, c12, c23.symm, c24.symm]
  · intro num w1 hr
    obtain ⟨-, rfl⟩ := IncrementBlocksInserted_eq_ok _ _ _ _ _ hr
    refine ⟨?_, rfl, fun a ha => Function.update_noteq ha _ _⟩
    simp [observe, World.counterValue, GaugeSetToCurrentTime, GaugeSet, Function.update_noteq,
      c13, c23, c34.symm, g13, g23]
  · intro num w1 hr
    obtain ⟨-, rfl⟩ := IncrementBlocksDeleted_eq_ok _ _ _ _ _ hr
    refine ⟨?_, rfl, fun a ha => Function.update_noteq ha _ _⟩
    simp [observe, World.counterValue, GaugeSetToCurrentTime, GaugeSet, Function.update_noteq,
      c14, c24, c34, g13, g23]
  · intro t count w1 hr
    simp only [ObserveBlockCount, Except.ok.injEq] at hr
    subst hr
    refine ⟨?_, rfl, rfl⟩
    simp only [observe, World.counterValue, GaugeVecSet, Function.update_same,
      Function.update_noteq v12]
    congr 1
    funext t1
    by_cases ht : t1 = t
    · subst ht; simp
    · simp [Function.update_noteq, ht]
  · intro count w1 hr
    simp only [ObserveWorkspaceCount, Except.ok.injEq] at hr
    subst hr
    refine ⟨?_, rfl, rfl⟩
    simp [observe, World.counterValue, GaugeSet, Function.update_noteq, g12, g23.symm]

/-- Witness for `update_frame`: `IncrementLoginCount(5)` on a freshly built registry. -/
theorem update_frame_witness :
    ∃ w1, IncrementLoginCount (some (newMetricsPointers World.empty)) 5
        (builtWorld demoHost 0 demoInfo World.empty) = .ok w1 ∧
      observe (newMetricsPointers World.empty) w1 =
        { observe (newMetricsPointers World.empty)
            (builtWorld demoHost 0 demoInfo World.empty) with
          loginCount := w1.counterValue (newMetricsPointers World.empty).loginCount } :=
  ⟨_, CounterAdd_ok _ _ _ (by decide),
    ((update_frame (newMetricsPointers World.empty)
      (builtWorld demoHost 0 demoInfo World.empty) 0
      (constructed_built demoHost 0 demoInfo World.empty World.wf_empty)).1 5 _
      (CounterAdd_ok _ _ _ (by decide))).1⟩


theorem CounterAdd_mono (cell : Nat) (v : Int) (w w1 : World)
    (hb : 0 ≤ v → w.counters cell + v.toNat < 2 ^ 64)
    (hr : CounterAdd cell v w = .ok w1) : ∀ a, w.counters a ≤ w1.counters a := by
  obtain ⟨hv, rfl⟩ := CounterAdd_eq_ok _ _ _ _ hr
  intro a
  simp only [Function.update_apply]
  split_ifs with ha
  · subst ha
    rw [Nat.mod_eq_of_lt (hb hv)]
    exact Nat.le_add_right _ _
  · exact le_refl _

theorem Call.run_mono (m : Metrics) (now : ℚ) (c : Call) (w w1 : World)
    (hb : c.noWrap m w) (hr : c.run (some m) now w = .ok w1) :
    ∀ a, w.counters a ≤ w1.counters a := by
  cases c with
  | incrementLoginCount num =>
    refine CounterAdd_mono _ _ _ _ (fun hv => ?_) hr
    have hn : ¬ num < 0 := fun h => absurd ((float64_neg_iff num).2 h) (by omega)
    exact hb (m.loginCount, (float64 num).toNat) (by simp [Call.increment, hn])
  | incrementLoginFailCount num =>
    refine CounterAdd_mono _ _ _ _ (fun hv => ?_) hr
    have hn : ¬ num < 0 := fun h => absurd ((float64_neg_iff num).2 h) (by omega)
    exact hb (m.loginFailCount, (float64 num).toNat) (by simp [Call.increment, hn])
  | incrementBlocksInserted num =>
    obtain ⟨hn, rfl⟩ := IncrementBlocksInserted_eq_ok _ _ _ _ _ hr
    have h := CounterAdd_mono m.blocksInsertedCount (float64 num) w _
      (fun _ => hb (m.blocksInsertedCount, (float64 num).toNat)
        (by simp [Call.increment, not_lt.2 hn]))
      (CounterAdd_ok _ _ _ (float64_nonneg num hn))
    exact fun a => h a
  | incrementBlocksDeleted num =>
    obtain ⟨hn, rfl⟩ := IncrementBlocksDeleted_eq_ok _ _ _ _ _ hr
    have h := CounterAdd_mono m.blocksDeletedCount (float64 num) w _
      (fun _ => hb (m.blocksDeletedCount, (float64 num).toNat)
        (by simp [Call.increment, not_lt.2 hn]))
      (CounterAdd_ok _ _ _ (float64_nonneg num hn))
    exact fun a => h a
  | observeBlockCount blockType count =>
    simp only [Call.run, ObserveBlockCount, Except.ok.injEq] at hr
    subst hr
    exact fun a => le_refl _
  | observeWorkspaceCount count =>
    simp only [Call.run, ObserveWorkspaceCount, Except.ok.injEq] at hr
    subst hr
    exact fun a => le_refl _

theorem Call.run_countersLE (m : Metrics) (now : ℚ) (c : Call) (w w1 : World)
    (hb : c.noWrap m w) (hr : c.run (some m) now w = .ok w1) : countersLE m w w1 :=
  have h := Call.run_mono m now c w w1 hb hr
  ⟨float64_mono_nat _ _ (h _), float64_mono_nat _ _ (h _), float64_mono_nat _ _ (h _),
    float64_mono_nat _ _ (h _)⟩

theorem Call.run_negative (m : Metrics) (now : ℚ) (c : Call) (w : World)
    (hc : c.negativeIncrement) : c.run (some m) now w = .error .counterDecrease := by
  cases c with
  | incrementLoginCount num => exact CounterAdd_error _ _ _ ((float64_neg_iff num).2 hc)
  | incrementLoginFailCount num => exact CounterAdd_error _ _ _ ((float64_neg_iff num).2 hc)
  | incrementBlocksInserted num =>
    simp only [Call.run, IncrementBlocksInserted,
      CounterAdd_error _ _ _ ((float64_neg_iff num).2 hc)]
    rfl
  | incrementBlocksDeleted num =>
    simp only [Call.run, IncrementBlocksDeleted,
      CounterAdd_error _ _ _ ((float64_neg_iff num).2 hc)]
    rfl
  | observeBlockCount blockType count => exact absurd hc (by simp [Call.negativeIncrement])
  | observeWorkspaceCount count => exact absurd hc (by simp [Call.negativeIncrement])

theorem Call.run_nonnegative (m : Metrics) (now : ℚ) (c : Call) (w : World)
    (hc : ¬ c.negativeIncrement) : ∃ w1, c.run (some m) now w = .ok w1 := by
  cases c with
  | incrementLoginCount num =>
    exact ⟨_, CounterAdd_ok _ _ _ (float64_nonneg num (by simpa [Call.negativeIncrement] using hc))⟩
  | incrementLoginFailCount num =>
    exact ⟨_, CounterAdd_ok _ _ _ (float64_nonneg num (by simpa [Call.negativeIncrement] using hc))⟩
  | incrementBlocksInserted num =>
    exact ⟨_, IncrementBlocksInserted_ok _ _ _ _ (by simpa [Call.negativeIncrement] using hc)⟩
  | incrementBlocksDeleted num =>
    exact ⟨_, IncrementBlocksDeleted_ok _ _ _ _ (by simpa [Call.negativeIncrement] using hc)⟩
  | observeBlockCount blockType count => exact ⟨_, rfl⟩
  | observeWorkspaceCount count => exact ⟨_, rfl⟩

theorem trace_chain (m : Metrics) (calls : List (ℚ × Call)) (w : World)
    (hb : noWrap m calls w) : List.Chain (countersLE m) w (trace (some m) calls w) := by
  induction calls generalizing w with
  | nil => exact List.Chain.nil
  | cons p rest ih =>
    obtain ⟨now, c⟩ := p
    obtain ⟨hb1, hb2⟩ := hb
    simp only [trace]
    cases hr : c.run (some m) now w with
    | error e => exact List.Chain.nil
    | ok w1 =>
      rw [hr] at hb2
      exact List.Chain.cons (Call.run_countersLE m now c w w1 hb1 hr) (ih w1 hb2)

theorem trace_length (m : Metrics) (calls : List (ℚ × Call)) (w : World)
    (hn : ∀ p ∈ calls, ¬ p.2.negativeIncrement) :
    (trace (some m) calls w).length = calls.length := by
  induction calls generalizing w with
  | nil => rfl
  | cons p rest ih =>
    obtain ⟨now, c⟩ := p
    obtain ⟨w1, hr⟩ := Call.run_nonnegative m now c w (hn _ (List.mem_cons_self _ _))
    simp only [trace, hr, List.length_cons]
    rw [ih w1 (fun q hq => hn q (List.mem_cons_of_mem _ hq))]

/-- C9, as stated, fails: on a freshly built registry two calls
`IncrementLoginCount(9223372036854775807)` both return, and the login counter goes from 0 to
9223372036854775808 and then back to 0: its accumulator wrapped at 2^64. -/
theorem counters_wrap_counterexample :
    ∃ m w w1 w2, NewMetrics demoHost 0 demoInfo World.empty = .ok (m, w) ∧
      IncrementLoginCount (some m) 9223372036854775807 w = .ok w1 ∧
      IncrementLoginCount (some m) 9223372036854775807 w1 = .ok w2 ∧
      w.counterValue m.loginCount = 0 ∧
      w1.counterValue m.loginCount = 9223372036854775808 ∧
      w2.counterValue m.loginCount = 0 ∧
      w2.counterValue m.loginCount < w1.counterValue m.loginCount ∧
      ¬ countersLE m w1 w2 := by
  have e1 : float64 9223372036854775807 = 9223372036854775808 := by decide
  have h0 : (builtWorld demoHost 0 demoInfo World.empty).counters 0 = 0 := by
    simp [builtWorld, World.empty]
  have hp : (newMetricsPointers World.empty).loginCount = 0 := rfl
  have hv0 : (builtWorld demoHost 0 demoInfo World.empty).counterValue 0 = 0 := by
    rw [World.counterValue, h0]; decide
  have a1 : (0 + (9223372036854775808 : Int).toNat) % 2 ^ 64 = 9223372036854775808 := by
    decide
  have a2 : (9223372036854775808 + (9223372036854775808 : Int).toNat) % 2 ^ 64 = 0 := by
    decide
  have v1 : float64 ((9223372036854775808 : Nat) : Int) = 9223372036854775808 := by decide
  have v2 : float64 ((0 : Nat) : Int) = 0 := by decide
  refine ⟨newMetricsPointers World.empty, builtWorld demoHost 0 demoInfo World.empty,
    { builtWorld demoHost 0 demoInfo World.empty with
      counters := (Function.update (builtWorld demoHost 0 demoInfo World.empty).counters 0
        9223372036854775808) },
    { builtWorld demoHost 0 demoInfo World.empty with
      counters := (Function.update (builtWorld demoHost 0 demoInfo World.empty).counters 0
        0) },
    NewMetrics_eq demoHost 0 demoInfo World.empty hostOK_demoHost, ?_, ?_, ?_, ?_, ?_, ?_, ?_⟩
  · simp only [IncrementLoginCount, e1, CounterAdd_ok _ 9223372036854775808 _ (by decide),
      hp, h0, a1]
  · simp only [IncrementLoginCount, e1, CounterAdd_ok _ 9223372036854775808 _ (by decide),
      hp, Function.update_same, Function.update_idem, a2]
  · rw [hp]; exact hv0
  · rw [hp, counterValue_update_same, v1]
  · rw [hp, counterValue_update_same, v2]
  · rw [hp, counterValue_update_same, counterValue_update_same, v1, v2]; decide
  · intro hle
    have h1 := hle.1
    rw [hp, counterValue_update_same, counterValue_update_same, v1, v2] at h1
    exact absurd h1 (by decide)

/-- C9, amended: on a constructed registry, along every sequence of update calls with
arbitrary integer arguments in which no call carries the accumulator of its counter to 2^64
or beyond, each of the four counters is, after any call that returns, at least what it was
before that call. A call that hands a negative count to a counter is rejected by the counter
(it panics, and the process has no later state); every other call returns, so a sequence
without negative counts runs to its end. -/
theorem counters_monotone (m : Metrics) (w : World) (calls : List (ℚ × Call))
    (hc : Constructed m w) (hb : noWrap m calls w) :
    List.Chain (countersLE m) w (trace (some m) calls w) ∧
    ((∀ p ∈ calls, ¬ p.2.negativeIncrement) →
      (trace (some m) calls w).length = calls.length) ∧
    (∀ (now : ℚ) (c : Call),
      (c.negativeIncrement → c.run (some m) now w = .error .counterDecrease) ∧
      (¬ c.negativeIncrement → ∃ w1, c.run (some m) now w = .ok w1 ∧ Constructed m w1 ∧
        (c.noWrap m w → countersLE m w w1))) := by
  refine ⟨trace_chain m calls w hb, trace_length m calls w, fun now c => ⟨?_, ?_⟩⟩
  · exact Call.run_negative m now c w
  · intro hn
    obtain ⟨w1, hr⟩ := Call.run_nonnegative m now c w hn
    exact ⟨w1, hr, Call.run_constructed m now c w w1 hc hr,
      fun hb1 => Call.run_countersLE m now c w w1 hb1 hr⟩

theorem Call.increment_amount (m : Metrics) (c : Call) (p : Nat × Nat)
    (hp : c.increment m = some p) : p.2 = c.amount := by
  cases c <;> simp only [Call.increment] at hp
  all_goals first
    | (split_ifs at hp; cases hp; rfl)
    | cases hp

theorem CounterAdd_le_add (cell : Nat) (v : Int) (w w1 : World)
    (hr : CounterAdd cell v w = .ok w1) : ∀ a, w1.counters a ≤ w.counters a + v.toNat := by
  obtain ⟨-, rfl⟩ := CounterAdd_eq_ok _ _ _ _ hr
  intro a
  simp only [Function.update_apply]
  split_ifs with ha
  · subst ha
    exact Nat.mod_le _ _
  · exact Nat.le_add_right _ _

theorem Call.run_le_add (m : Metrics) (now : ℚ) (c : Call) (w w1 : World)
    (hr : c.run (some m) now w = .ok w1) : ∀ a, w1.counters a ≤ w.counters a + c.amount := by
  cases c with
  | incrementLoginCount num => exact CounterAdd_le_add _ _ _ _ hr
  | incrementLoginFailCount num => exact CounterAdd_le_add _ _ _ _ hr
  | incrementBlocksInserted num =>
    obtain ⟨hn, rfl⟩ := IncrementBlocksInserted_eq_ok _ _ _ _ _ hr
    have h := CounterAdd_le_add m.blocksInsertedCount (float64 num) w _
      (CounterAdd_ok _ _ _ (float64_nonneg num hn))
    exact fun a => h a
  | incrementBlocksDeleted num =>
    obtain ⟨hn, rfl⟩ := IncrementBlocksDeleted_eq_ok _ _ _ _ _ hr
    have h := CounterAdd_le_add m.blocksDeletedCount (float64 num) w _
      (CounterAdd_ok _ _ _ (float64_nonneg num hn))
    exact fun a => h a
  | observeBlockCount blockType count =>
    simp only [Call.run, ObserveBlockCount, Except.ok.injEq] at hr
    subst hr
    exact fun a => Nat.le_add_right _ _
  | observeWorkspaceCount count =>
    simp only [Call.run, ObserveWorkspaceCount, Except.ok.injEq] at hr
    subst hr
    exact fun a => Nat.le_add_right _ _

/-- No accumulator wraps while the counts handed to counters, added to any accumulator, stay
below 2^64. -/
theorem noWrap_of_total (m : Metrics) (calls : List (ℚ × Call)) (w : World)
    (h : ∀ a, w.counters a + (calls.map (fun p => p.2.amount)).sum < 2 ^ 64) :
    noWrap m calls w := by
  induction calls generalizing w with
  | nil => exact trivial
  | cons p rest ih =>
    obtain ⟨now, c⟩ := p
    simp only [List.map_cons, List.sum_cons] at h
    refine ⟨?_, ?_⟩
    · intro q hq
      have h1 := Call.increment_amount m c q hq
      have h2 := h q.1
      omega
    · cases hr : c.run (some m) now w with
      | error e => exact trivial
      | ok w1 =>
        refine ih w1 (fun a => ?_)
        have h1 := Call.run_le_add m now c w w1 hr a
        have h2 := h a
        omega

theorem builtWorld_empty_counters (a : Nat) :
    (builtWorld demoHost 0 demoInfo World.empty).counters a = 0 := by
  simp only [builtWorld, World.empty, Function.update_apply]
  split_ifs <;> rfl

/-- Witness for `counters_monotone`: a freshly built registry and the calls
`IncrementLoginCount(2)`, `IncrementBlocksDeleted(1)`, `IncrementLoginCount(-1)`. -/
theorem counters_monotone_witness :
    List.Chain (countersLE (newMetricsPointers World.empty))
      (builtWorld demoHost 0 demoInfo World.empty)
      (trace (some (newMetricsPointers World.empty))
        [(1, .incrementLoginCount 2), (2, .incrementBlocksDeleted 1),
          (3, .incrementLoginCount (-1))]
        (builtWorld demoHost 0 demoInfo World.empty)) :=
  (counters_monotone (newMetricsPointers World.empty)
    (builtWorld demoHost 0 demoInfo World.empty) _
    (constructed_built demoHost 0 demoInfo World.empty World.wf_empty)
    (noWrap_of_total _ _ _ (fun a => by
      rw [builtWorld_empty_counters a]
      decide))).1

/-! ### Independence of two registries -/

/-- The cells an update call on `m` may write, and nothing else in the world. -/
theorem Call.run_frame (m : Metrics) (now : ℚ) (c : Call) (w w1 : World)
    (hr : c.run (some m) now w = .ok w1) :
    w1.registries = w.registries ∧
    (∀ a, a ≠ m.loginCount → a ≠ m.loginFailCount → a ≠ m.blocksInsertedCount →
      a ≠ m.blocksDeletedCount → w1.counters a = w.counters a) ∧
    (∀ a, a ≠ m.workspaceCount → a ≠ m.blockLastActivity → w1.gauges a = w.gauges a) ∧
    (∀ a, a ≠ m.blockCount → w1.gaugeVecs a = w.gaugeVecs a) := by
  cases c with
  | incrementLoginCount num =>
    obtain ⟨-, rfl⟩ := CounterAdd_eq_ok _ _ _ _ hr
    exact ⟨rfl, fun a h1 _ _ _ => Function.update_noteq h1 _ _, fun _ _ _ => rfl,
      fun _ _ => rfl⟩
  | incrementLoginFailCount num =>
    obtain ⟨-, rfl⟩ := CounterAdd_eq_ok _ _ _ _ hr
    exact ⟨rfl, fun a _ h2 _ _ => Function.update_noteq h2 _ _, fun _ _ _ => rfl,
      fun _ _ => rfl⟩
  | incrementBlocksInserted num =>
    obtain ⟨-, rfl⟩ := IncrementBlocksInserted_eq_ok _ _ _ _ _ hr
    exact ⟨rfl, fun a _ _ h3 _ => Function.update_noteq h3 _ _,
      fun a _ h2 => Function.update_noteq h2 _ _, fun _ _ => rfl⟩
  | incrementBlocksDeleted num =>
    obtain ⟨-, rfl⟩ := IncrementBlocksDeleted_eq_ok _ _ _ _ _ hr
    exact ⟨rfl, fun a _ _ _ h4 => Function.update_noteq h4 _ _,
      fun a _ h2 => Function.update_noteq h2 _ _, fun _ _ => rfl⟩
  | observeBlockCount blockType count =>
    simp only [Call.run, ObserveBlockCount, Except.ok.injEq] at hr
    subst hr
    exact ⟨rfl, fun _ _ _ _ _ => rfl, fun _ _ _ => rfl,
      fun a h1 => Function.update_noteq h1 _ _⟩
  | observeWorkspaceCount count =>
    simp only [Call.run, ObserveWorkspaceCount, Except.ok.injEq] at hr
    subst hr
    exact ⟨rfl, fun _ _ _ _ _ => rfl, fun a h1 _ => Function.update_noteq h1 _ _,
      fun _ _ => rfl⟩

theorem Metrics.allocatedIn_facts (m : Metrics) (w : World) (hx : m.AllocatedIn w) :
    m.registry < w.nextRegistry ∧
    (m.loginCount < w.nextCounter ∧ m.loginFailCount < w.nextCounter ∧
      m.blocksInsertedCount < w.nextCounter ∧ m.blocksDeletedCount < w.nextCounter) ∧
    (m.startTime < w.nextGauge ∧ m.workspaceCount < w.nextGauge ∧
      m.blockLastActivity < w.nextGauge) ∧
    (m.instanceGauge < w.nextGaugeVec ∧ m.blockCount < w.nextGaugeVec) := by
  obtain ⟨hr, hc, hg, hv⟩ := hx
  exact ⟨hr, ⟨hc _ (by simp), hc _ (by simp), hc _ (by simp), hc _ (by simp)⟩,
    ⟨hg _ (by simp), hg _ (by simp), hg _ (by simp)⟩, ⟨hv _ (by simp), hv _ (by simp)⟩⟩

theorem builtWorld_counters_of_lt (h : Host) (now : ℚ) (info : InstanceInfo) (w : World)
    (a : Nat) (ha : a < w.nextCounter) : (builtWorld h now info w).counters a = w.counters a := by
  simp only [builtWorld]
  rw [Function.update_noteq (by omega), Function.update_noteq (by omega),
    Function.update_noteq (by omega), Function.update_noteq (by omega)]

theorem builtWorld_gauges_of_lt (h : Host) (now : ℚ) (info : InstanceInfo) (w : World)
    (a : Nat) (ha : a < w.nextGauge) : (builtWorld h now info w).gauges a = w.gauges a := by
  simp only [builtWorld]
  rw [Function.update_noteq (by omega), Function.update_noteq (by omega),
    Function.update_noteq (by omega)]

theorem builtWorld_gaugeVecs_of_lt (h : Host) (now : ℚ) (info : InstanceInfo) (w : World)
    (a : Nat) (ha : a < w.nextGaugeVec) :
    (builtWorld h now info w).gaugeVecs a = w.gaugeVecs a := by
  simp only [builtWorld]
  rw [Function.update_noteq (by omega), Function.update_noteq (by omega)]

theorem builtWorld_registries_of_lt (h : Host) (now : ℚ) (info : InstanceInfo) (w : World)
    (a : Nat) (ha : a < w.nextRegistry) :
    (builtWorld h now info w).registries a = w.registries a := by
  simp only [builtWorld]
  rw [Function.update_noteq (by omega)]

/-- Updates through a registry allocated in `wx` and updates through the registry that
`NewMetrics` builds in `wx` do not reach each other's instruments. -/
theorem observe_frame_of_allocated (m1 : Metrics) (wx : World) (hx : m1.AllocatedIn wx)
    (now : ℚ) (c : Call) (wa wb : World) :
    (c.run (some m1) now wa = .ok wb →
      observe (newMetricsPointers wx) wb = observe (newMetricsPointers wx) wa ∧
      ∀ a, wx.nextCounter ≤ a → wb.counters a = wa.counters a) ∧
    (c.run (some (newMetricsPointers wx)) now wa = .ok wb →
      observe m1 wb = observe m1 wa ∧
      ∀ a, a < wx.nextCounter → wb.counters a = wa.counters a) := by
  obtain ⟨-, ⟨k1, k2, k3, k4⟩, ⟨g1, g2, g3⟩, ⟨v1, v2⟩⟩ := Metrics.allocatedIn_facts m1 wx hx
  constructor
  · intro hr
    obtain ⟨-, hc, hg, hv⟩ := Call.run_frame m1 now c wa wb hr
    refine ⟨?_, fun a ha => hc a (by omega) (by omega) (by omega) (by omega)⟩
    simp only [observe, World.counterValue, newMetricsPointers,
      hc wx.nextCounter (by omega) (by omega) (by omega) (by omega),
      hc (wx.nextCounter + 1) (by omega) (by omega) (by omega) (by omega),
      hc (wx.nextCounter + 2) (by omega) (by omega) (by omega) (by omega),
      hc (wx.nextCounter + 3) (by omega) (by omega) (by omega) (by omega),
      hg wx.nextGauge (by omega) (by omega), hg (wx.nextGauge + 1) (by omega) (by omega),
      hg (wx.nextGauge + 2) (by omega) (by omega),
      hv wx.nextGaugeVec (by omega), hv (wx.nextGaugeVec + 1) (by omega)]
  · intro hr
    obtain ⟨-, hc, hg, hv⟩ := Call.run_frame (newMetricsPointers wx) now c wa wb hr
    simp only [newMetricsPointers] at hc hg hv
    refine ⟨?_, fun a ha => hc a (by omega) (by omega) (by omega) (by omega)⟩
    simp only [observe, World.counterValue,
      hc m1.loginCount (by omega) (by omega) (by omega) (by omega),
      hc m1.loginFailCount (by omega) (by omega) (by omega) (by omega),
      hc m1.blocksInsertedCount (by omega) (by omega) (by omega) (by omega),
      hc m1.blocksDeletedCount (by omega) (by omega) (by omega) (by omega),
      hg m1.startTime (by omega) (by omega), hg m1.workspaceCount (by omega) (by omega),
      hg m1.blockLastActivity (by omega) (by omega),
      hv m1.instanceGauge (by omega), hv m1.blockCount (by omega)]

/-- C7: a first `NewMetrics(info)` returns a registry `m1`; in whatever later world a second
`NewMetrics(info)` with the same `InstanceInfo` runs, it returns too (no abort), with a
registry of its own: the registry of `m1` and every instrument value of `m1` are as before
the second construction, and from then on an update through one of the two registries
changes no instrument value (and no counter accumulator) of the other and no registry. -/
theorem two_constructions_independent (h : Host) (now1 now2 : ℚ) (info : InstanceInfo)
    (w : World) (hh : HostOK h) :
    ∃ m1 w1, NewMetrics h now1 info w = .ok (m1, w1) ∧ m1.AllocatedIn w1 ∧
      ∀ wx, m1.AllocatedIn wx →
        ∃ m2 w2, NewMetrics h now2 info wx = .ok (m2, w2) ∧
          m1.registry ≠ m2.registry ∧
          w2.registries m1.registry = wx.registries m1.registry ∧
          observe m1 w2 = observe m1 wx ∧
          (∀ a, a < wx.nextCounter → w2.counters a = wx.counters a) ∧
          (∀ (now : ℚ) (c : Call) (wa wb : World), c.run (some m1) now wa = .ok wb →
            observe m2 wb = observe m2 wa ∧ wb.registries = wa.registries ∧
            ∀ a ∈ [m2.loginCount, m2.loginFailCount, m2.blocksInsertedCount,
              m2.blocksDeletedCount], wb.counters a = wa.counters a) ∧
          (∀ (now : ℚ) (c : Call) (wa wb : World), c.run (some m2) now wa = .ok wb →
            observe m1 wb = observe m1 wa ∧ wb.registries = wa.registries ∧
            ∀ a ∈ [m1.loginCount, m1.loginFailCount, m1.blocksInsertedCount,
              m1.blocksDeletedCount], wb.counters a = wa.counters a) := by
  refine ⟨_, _, NewMetrics_eq h now1 info w hh, newMetricsPointers_allocated h now1 info w, ?_⟩
  intro wx hx
  obtain ⟨hr, ⟨k1, k2, k3, k4⟩, ⟨g1, g2, g3⟩, ⟨v1, v2⟩⟩ :=
    Metrics.allocatedIn_facts _ wx hx
  refine ⟨_, _, NewMetrics_eq h now2 info wx hh, ?_, ?_, ?_,
    fun a ha => builtWorld_counters_of_lt h now2 info wx a ha, ?_, ?_⟩
  · show (newMetricsPointers w).registry ≠ wx.nextRegistry
    omega
  · exact builtWorld_registries_of_lt h now2 info wx _ hr
  · simp only [observe, World.counterValue, builtWorld_counters_of_lt h now2 info wx _ k1,
      builtWorld_counters_of_lt h now2 info wx _ k2,
      builtWorld_counters_of_lt h now2 info wx _ k3,
      builtWorld_counters_of_lt h now2 info wx _ k4,
      builtWorld_gauges_of_lt h now2 info wx _ g1, builtWorld_gauges_of_lt h now2 info wx _ g2,
      builtWorld_gauges_of_lt h now2 info wx _ g3,
      builtWorld_gaugeVecs_of_lt h now2 info wx _ v1,
      builtWorld_gaugeVecs_of_lt h now2 info wx _ v2]
  · intro now c wa wb hrun
    obtain ⟨h1, h2⟩ := (observe_frame_of_allocated _ wx hx now c wa wb).1 hrun
    refine ⟨h1, (Call.run_frame _ now c wa wb hrun).1, fun a ha => h2 a ?_⟩
    simp only [newMetricsPointers, List.mem_cons, List.mem_singleton, List.not_mem_nil,
      or_false] at ha
    omega
  · intro now c wa wb hrun
    obtain ⟨h1, h2⟩ := (observe_frame_of_allocated _ wx hx now c wa wb).2 hrun
    refine ⟨h1, (Call.run_frame _ now c wa wb hrun).1, fun a ha => h2 a ?_⟩
    simp only [List.mem_cons, List.mem_singleton, List.not_mem_nil, or_false] at ha
    omega

/-- Witness for `two_constructions_independent`: two constructions on the example host,
the second right after the first. -/
theorem two_constructions_independent_witness :
    ∃ m1 w1 m2 w2, NewMetrics demoHost 0 demoInfo World.empty = .ok (m1, w1) ∧
      NewMetrics demoHost 1 demoInfo w1 = .ok (m2, w2) ∧ m1.registry ≠ m2.registry ∧
      observe m1 w2 = observe m1 w1 := by
  obtain ⟨m1, w1, h1, ha, hx⟩ :=
    two_constructions_independent demoHost 0 1 demoInfo World.empty hostOK_demoHost
  obtain ⟨m2, w2, h2, h3, -, h5, -, -, -⟩ := hx w1 ha
  exact ⟨m1, w1, m2, w2, h1, h2, h3, h5⟩

end FocalboardMetrics
